import Mathlib

/-!
# Verification of the ICEA deterministic computation core

Shallow embedding of the pure computation engine of the ICEA repository:
`icea/packing.py` (executor packing), `icea/cost_model.py` (cost and
forecast), `icea/recommend.py` (grid search with guardrails) and the
risk-note evaluator plus analysis pipeline of `icea/api.py`.

Python floats are modelled as rationals; Python's `round` (round half to
even, also used by `round(x, n)` and by the `.0f` format) is `pyRoundInt`
below, Python's `int()` truncation toward zero is `intPy`, and
`math.floor` is the floor on rationals.
-/

/-- Python `round(x)`: nearest integer, ties go to the even integer. -/
def pyRoundInt (x : ℚ) : ℤ :=
  let f := ⌊x⌋
  let frac := x - (f : ℚ)
  if frac < 1 / 2 then f
  else if 1 / 2 < frac then f + 1
  else if f % 2 = 0 then f else f + 1

/-- Python `round(x, n)`: round half to even at `n` decimal places. -/
def roundTo (n : ℕ) (x : ℚ) : ℚ :=
  (pyRoundInt (x * 10 ^ n) : ℚ) / 10 ^ n

/-- Python `int(x)` on a float: truncation toward zero. -/
def intPy (x : ℚ) : ℤ :=
  if 0 ≤ x then ⌊x⌋ else -⌊-x⌋

/-! ## Data model (`icea/models.py`) -/

/-- `NodeConfig`: node (worker) configuration. -/
structure NodeConfig where
  cores : ℤ
  memory_gb : ℚ
  hourly_cost_usd : ℚ
  count : ℤ
deriving DecidableEq, Repr

/-- `ExecutorConfig`: executor configuration. -/
structure ExecutorConfig where
  cores : ℤ
  memory_gb : ℚ
deriving DecidableEq, Repr

/-- `Assumptions`: optional overhead reserves (daemon/system). -/
structure Assumptions where
  reserve_cores : ℤ
  reserve_memory_gb : ℚ
deriving DecidableEq, Repr

/-- Data skew level of `WorkloadConfig.data_skew`. -/
inductive DataSkew where
  | low
  | medium
  | high
deriving DecidableEq, Repr

/-- `WorkloadConfig`: workload timing, frequency and optional refinement
fields (the optional fields feed only the risk notes). -/
structure WorkloadConfig where
  avg_runtime_minutes : ℚ
  jobs_per_day : ℚ
  partition_count : Option ℤ := none
  input_data_gb : Option ℚ := none
  concurrent_jobs : Option ℚ := none
  peak_executor_memory_gb : Option ℚ := none
  shuffle_read_mb : Option ℚ := none
  shuffle_write_mb : Option ℚ := none
  data_skew : Option DataSkew := none
  spot_pct : Option ℚ := none
deriving DecidableEq, Repr

/-- `PackingResult`: result of the executor packing calculation. -/
structure PackingResult where
  executors_per_node : ℤ
  cpu_utilization : ℚ
  mem_utilization : ℚ
  cpu_waste : ℚ
  mem_waste : ℚ
  waste : ℚ
  efficiency_score : ℤ
deriving DecidableEq, Repr

/-- `CostResult`: cost model outputs. -/
structure CostResult where
  hourly_cluster_cost_usd : ℚ
  daily_cost_usd : ℚ
  waste_cost_daily_usd : ℚ
  waste_cost_monthly_usd : ℚ
deriving DecidableEq, Repr

/-- `RecommendedConfig`: recommended executor configuration. -/
structure RecommendedConfig where
  executor_cores : ℤ
  executor_memory_gb : ℚ
  executors_per_node : ℤ
  efficiency_score : ℤ
  waste : ℚ
  waste_cost_monthly_usd : ℚ
  savings_vs_current_monthly_usd : ℚ
deriving DecidableEq, Repr

/-- One row of the forecast produced by `compute_forecast`. -/
structure ForecastEntry where
  month : ℕ
  current_usd : ℚ
  recommended_usd : ℚ
  savings_usd : ℚ
deriving DecidableEq, Repr

/-! ## `icea/packing.py` -/

/-- `compute_packing`: executors per node and utilization. -/
def compute_packing (node : NodeConfig) (executor : ExecutorConfig)
    (assumptions : Assumptions) : PackingResult :=
  let effective_cores : ℚ := (node.cores : ℚ) - (assumptions.reserve_cores : ℚ)
  let effective_mem : ℚ := node.memory_gb - assumptions.reserve_memory_gb
  if effective_cores ≤ 0 ∨ effective_mem ≤ 0 then
    { executors_per_node := 0
      cpu_utilization := 0
      mem_utilization := 0
      cpu_waste := 1
      mem_waste := 1
      waste := 1
      efficiency_score := 0 }
  else
    let e_cpu : ℤ := if 0 < executor.cores then ⌊effective_cores / (executor.cores : ℚ)⌋ else 0
    let e_mem : ℤ := if 0 < executor.memory_gb then ⌊effective_mem / executor.memory_gb⌋ else 0
    let executors_per_node := min e_cpu e_mem
    let cpu_util : ℚ :=
      if effective_cores ≠ 0 then ((executors_per_node : ℚ) * (executor.cores : ℚ)) / effective_cores else 0
    let mem_util : ℚ :=
      if effective_mem ≠ 0 then ((executors_per_node : ℚ) * executor.memory_gb) / effective_mem else 0
    let cpu_waste := 1 - cpu_util
    let mem_waste := 1 - mem_util
    let waste := max cpu_waste mem_waste
    let score := pyRoundInt (100 * (1 - waste))
    { executors_per_node := executors_per_node
      cpu_utilization := roundTo 4 cpu_util
      mem_utilization := roundTo 4 mem_util
      cpu_waste := roundTo 4 cpu_waste
      mem_waste := roundTo 4 mem_waste
      waste := roundTo 4 waste
      efficiency_score := min 100 (max 0 score) }

/-! ## `icea/cost_model.py` -/

/-- The utilization factor actually used by `compute_cost`:
the given value when it lies in `(0, 1]`, else `1.0`. -/
def uFactor (utilization_factor : Option ℚ) : ℚ :=
  match utilization_factor with
  | some v => if 0 < v ∧ v ≤ 1 then v else 1
  | none => 1

/-- `hourly_cluster_cost = P * N` inside `compute_cost`. -/
def hourly_cluster_cost (node : NodeConfig) : ℚ :=
  node.hourly_cost_usd * (node.count : ℚ)

/-- `daily_cost_raw = hourly_cluster_cost * (R / 60.0) * J` inside `compute_cost`. -/
def daily_cost_raw (node : NodeConfig) (workload : WorkloadConfig) : ℚ :=
  hourly_cluster_cost node * (workload.avg_runtime_minutes / 60) * workload.jobs_per_day

/-- `compute_cost`: cost calculations. -/
def compute_cost (node : NodeConfig) (workload : WorkloadConfig) (packing : PackingResult)
    (utilization_factor : Option ℚ := none) : CostResult :=
  let waste := packing.waste
  let u := uFactor utilization_factor
  let daily_cost := roundTo 2 (daily_cost_raw node workload * u)
  let waste_cost_daily := roundTo 2 (daily_cost * waste)
  let waste_cost_monthly := roundTo 2 (waste_cost_daily * 30)
  { hourly_cluster_cost_usd := roundTo 2 (hourly_cluster_cost node)
    daily_cost_usd := daily_cost
    waste_cost_daily_usd := waste_cost_daily
    waste_cost_monthly_usd := waste_cost_monthly }

/-- The loop of `compute_forecast`: first argument is the number of
remaining iterations, second is the month counter `m` of the Python
`for m in range(1, months + 1)`. -/
def forecastLoop (g : ℚ) : ℕ → ℕ → ℚ → ℚ → List ForecastEntry
  | 0, _, _, _ => []
  | k + 1, m, cur, recm =>
    let cur2 := if 1 < m ∧ g ≠ 0 then cur * (1 + g) else cur
    let recm2 := if 1 < m ∧ g ≠ 0 then recm * (1 + g) else recm
    { month := m
      current_usd := roundTo 2 cur2
      recommended_usd := roundTo 2 recm2
      savings_usd := roundTo 2 (cur2 - recm2) } :: forecastLoop g k (m + 1) cur2 recm2

/-- `compute_forecast`: project monthly costs over `months` months. -/
def compute_forecast (cost_current_monthly cost_recommended_monthly : ℚ) (months : ℕ)
    (growth_rate_pct : Option ℚ := none) : List ForecastEntry :=
  let g : ℚ :=
    match growth_rate_pct with
    | some r => (r / 100) / 12
    | none => 0
  forecastLoop g months 1 cost_current_monthly cost_recommended_monthly

/-! ## `icea/recommend.py` -/

/-- Candidate executor cores (filtered by node cores). -/
def CORE_CANDIDATES : List ℤ := [1, 2, 3, 4, 5, 6, 8]

/-- Minimum-memory guardrail (GB). -/
def MIN_EXECUTOR_MEMORY_GB : ℤ := 6

/-- Maximum-executors-per-node guardrail. -/
def MAX_EXECUTORS_PER_NODE : ℤ := 12

/-- The Python tuple held in `best` during the search:
`(waste, waste_monthly, score, c, m, savings)`. -/
structure BestEntry where
  waste : ℚ
  waste_monthly : ℚ
  score : ℤ
  c : ℚ
  m : ℚ
  savings : ℚ
deriving DecidableEq, Repr

/-- Memory candidates of the inner loop:
`range(int(max(MIN_EXECUTOR_MEMORY_GB, 1)), int(M) + 1, 1)`, stopped
early by `if m > M: break`. -/
def memCandidates (M : ℚ) : List ℤ :=
  (((List.range (intPy M + 1 - max MIN_EXECUTOR_MEMORY_GB 1).toNat).map
    fun (i : ℕ) => max MIN_EXECUTOR_MEMORY_GB 1 + (i : ℤ)).takeWhile
    fun m => decide ((m : ℚ) ≤ M))

/-- The `(c, m)` pairs visited by the two nested loops, in order:
cores ascending (`CORE_CANDIDATES` filtered to `c ≤ C`), then memory
ascending. -/
def candidatePairs (C : ℤ) (M : ℚ) : List (ℤ × ℤ) :=
  (CORE_CANDIDATES.filter fun c => decide (c ≤ C)).flatMap fun c =>
    (memCandidates M).map fun m => (c, m)

/-- Body of the candidate loop of `recommend`: guardrail filters followed
by the strictly-lower-waste comparison against the running best. -/
def candidateStep (node : NodeConfig) (workload : WorkloadConfig) (assumptions : Assumptions)
    (current_cost : CostResult) (best : Option BestEntry) (cm : ℤ × ℤ) : Option BestEntry :=
  let exec_candidate : ExecutorConfig := { cores := cm.1, memory_gb := (cm.2 : ℚ) }
  let packing := compute_packing node exec_candidate assumptions
  if packing.executors_per_node = 0 then best
  else if MAX_EXECUTORS_PER_NODE < packing.executors_per_node then best
  else
    let cost := compute_cost node workload packing none
    match best with
    | none =>
      some { waste := packing.waste
             waste_monthly := cost.waste_cost_monthly_usd
             score := packing.efficiency_score
             c := (cm.1 : ℚ)
             m := (cm.2 : ℚ)
             savings := current_cost.waste_cost_monthly_usd - cost.waste_cost_monthly_usd }
    | some b =>
      if packing.waste < b.waste then
        some { waste := packing.waste
               waste_monthly := cost.waste_cost_monthly_usd
               score := packing.efficiency_score
               c := (cm.1 : ℚ)
               m := (cm.2 : ℚ)
               savings := current_cost.waste_cost_monthly_usd - cost.waste_cost_monthly_usd }
      else some b

/-- `recommend`: search candidate executor configs; pick one that
minimizes waste while respecting min memory and max executors per node.
`current_executor` and `current_packing` are accepted (as in the source)
but not read. -/
def recommend (node : NodeConfig) (current_executor : ExecutorConfig)
    (workload : WorkloadConfig) (assumptions : Assumptions)
    (current_packing : PackingResult) (current_cost : CostResult) :
    Option RecommendedConfig :=
  if node.cores - assumptions.reserve_cores ≤ 0 ∨
      node.memory_gb - assumptions.reserve_memory_gb ≤ 0 then none
  else
    match (candidatePairs (node.cores - assumptions.reserve_cores)
        (node.memory_gb - assumptions.reserve_memory_gb)).foldl
        (candidateStep node workload assumptions current_cost) none with
    | none => none
    | some b =>
      let executors : ℤ :=
        min ⌊((node.cores - assumptions.reserve_cores : ℤ) : ℚ) / (intPy b.c : ℚ)⌋
          ⌊(node.memory_gb - assumptions.reserve_memory_gb) / (intPy b.m : ℚ)⌋
      some { executor_cores := intPy b.c
             executor_memory_gb := b.m
             executors_per_node := executors
             efficiency_score := b.score
             waste := roundTo 4 b.waste
             waste_cost_monthly_usd := roundTo 2 b.waste_monthly
             savings_vs_current_monthly_usd := roundTo 2 b.savings }

/-! ## `icea/api.py`: risk notes and the analysis pipeline -/

/-- The subset of `AnalyzeRequest` consumed by `_do_analyze` and
`_risk_notes` (boundary-only fields such as `cloud` or `region` are
omitted). -/
structure AnalyzeRequest where
  node : NodeConfig
  executor : ExecutorConfig
  workload : WorkloadConfig
  assumptions : Option Assumptions := none
  utilization_factor : Option ℚ := none
deriving DecidableEq, Repr

/-- `AnalyzeResponse`: response from `/v1/analyze`. -/
structure AnalyzeResponse where
  packing : PackingResult
  cost : CostResult
  recommendation : Option RecommendedConfig
  risk_notes : List String
deriving DecidableEq, Repr

/-- Digit grouping of Python's `{n:,}` format, on a reversed digit list;
the fuel argument (initialized to the list length) makes the recursion
structural. -/
def insertCommasRevAux : ℕ → List Char → List Char
  | 0, cs => cs
  | _, [] => []
  | fuel + 1, cs =>
    if cs.length ≤ 3 then cs
    else cs.take 3 ++ ',' :: insertCommasRevAux fuel (cs.drop 3)

/-- Python `f"{n:,}"` for an integer: thousands separators. -/
def fmtComma (n : ℤ) : String :=
  let ds := (toString n.natAbs).data
  let sign := if n < 0 then "-" else ""
  sign ++ String.mk (insertCommasRevAux ds.length ds.reverse).reverse

/-- Python `f"{x:.0f}"` for the nonnegative values formatted by
`_risk_notes`: round half to even to an integer. -/
def fmtF0 (x : ℚ) : String :=
  toString (pyRoundInt x)

/-- Python `f"{x:.1f}"` for the nonnegative values formatted by
`_risk_notes`: one decimal place, round half to even. -/
def fmtF1 (x : ℚ) : String :=
  let t := pyRoundInt (x * 10)
  toString (t / 10) ++ "." ++ toString (t % 10)

/-- Note text: executor memory below 6 GB. -/
def oomNote : String :=
  "Executor memory below 6 GB may increase OOM likelihood for many workloads."

/-- Note text: more than 10 executors per node. -/
def gcNote : String :=
  "High executors per node may increase scheduling/GC overhead."

/-- Note text: partition count much higher than total executor cores. -/
def partitionHighNote (pc total_cores : ℤ) : String :=
  "Partition count (" ++ fmtComma pc ++ ") is much higher than total executor cores (" ++
    fmtComma total_cores ++
    "). Consider increasing cluster size or reducing partitions to limit task scheduling overhead."

/-- Note text: total executor cores much higher than partition count. -/
def coresHighNote (total_cores pc : ℤ) : String :=
  "Total executor cores (" ++ fmtComma total_cores ++ ") is much higher than partition count (" ++
    fmtComma pc ++ "). Some cores may be underutilized; consider aligning partitions with parallelism."

/-- Note text: input data large relative to executor memory. -/
def inputDataNote (data_gb mem_gb : ℚ) : String :=
  "Input data per job (" ++ fmtF0 data_gb ++ " GB) is large relative to executor memory (" ++
    fmtF0 mem_gb ++
    " GB). Consider increasing executor memory or partition count to reduce spill and shuffle pressure."

/-- Note text: concurrent jobs without a utilization factor. -/
def concurrentNote (cj : ℚ) : String :=
  "Cluster runs ~" ++ fmtF0 cj ++
    " concurrent jobs. Set utilization factor if cost should reflect shared usage."

/-- Note text: observed peak executor memory close to configured memory. -/
def peakNote (peak_mem mem_gb : ℚ) : String :=
  "Observed peak executor memory (" ++ fmtF1 peak_mem ++ " GB) is close to or above configured (" ++
    fmtF0 mem_gb ++ " GB). Consider increasing executor memory to reduce OOM and spill risk."

/-- Note text: high shuffle volume relative to executor memory. -/
def shuffleNote : String :=
  "High shuffle volume relative to executor memory may increase spill and I/O. " ++
    "Consider increasing executor memory or reducing shuffle."

/-- Note text: high data skew. -/
def skewNote : String :=
  "High data skew can cause tail latency and underutilized executors. " ++
    "Consider repartitioning or salting keys to balance load."

/-- Note text: spot/preemptible capacity above 50%. -/
def spotNote (spot : ℚ) : String :=
  "Cluster uses " ++ fmtF0 spot ++
    "% spot/preemptible capacity. Expect higher interrupt risk and possible cost variance."

/-- Rule 1 of `_risk_notes`: `req.executor.memory_gb < 6`. -/
def seg_oom (req : AnalyzeRequest) : List String :=
  if req.executor.memory_gb < 6 then [oomNote] else []

/-- Rule 2 of `_risk_notes`: `packing.executors_per_node > 10`. -/
def seg_epn (packing : PackingResult) : List String :=
  if 10 < packing.executors_per_node then [gcNote] else []

/-- Rule 3 of `_risk_notes`: partition count vs total executor cores. -/
def seg_partitions (req : AnalyzeRequest) (packing : PackingResult) : List String :=
  match req.workload.partition_count with
  | none => []
  | some pc =>
    if 0 < packing.executors_per_node then
      let total_cores := req.node.count * packing.executors_per_node * req.executor.cores
      if 0 < total_cores then
        if 4 * total_cores < pc then [partitionHighNote pc total_cores]
        else if 4 * pc < total_cores then [coresHighNote total_cores pc]
        else []
      else []
    else []

/-- Rule 4 of `_risk_notes`: input data size vs executor memory. -/
def seg_input_data (req : AnalyzeRequest) (packing : PackingResult) : List String :=
  match req.workload.input_data_gb with
  | none => []
  | some data_gb =>
    if 0 < data_gb ∧ 0 < req.executor.memory_gb then
      let total_executors := req.node.count * packing.executors_per_node
      if 0 < total_executors then
        if 1 / 2 * req.executor.memory_gb < data_gb / (total_executors : ℚ) then
          [inputDataNote data_gb req.executor.memory_gb]
        else []
      else []
    else []

/-- Rule 5 of `_risk_notes`: concurrent jobs with no (or saturated)
utilization factor. -/
def seg_concurrent (req : AnalyzeRequest) : List String :=
  match req.workload.concurrent_jobs with
  | none => []
  | some cj =>
    if 1 < cj then
      match req.utilization_factor with
      | none => [concurrentNote cj]
      | some uf => if 1 ≤ uf then [concurrentNote cj] else []
    else []

/-- Rule 6 of `_risk_notes`: observed peak executor memory vs configured. -/
def seg_peak (req : AnalyzeRequest) : List String :=
  match req.workload.peak_executor_memory_gb with
  | none => []
  | some peak_mem =>
    if 0 < peak_mem ∧ 0 < req.executor.memory_gb then
      if 9 / 10 * req.executor.memory_gb ≤ peak_mem then
        [peakNote peak_mem req.executor.memory_gb]
      else []
    else []

/-- Rule 7 of `_risk_notes`: shuffle volume vs executor memory
(`shuffle_read_mb or 0` and `shuffle_write_mb or 0`). -/
def seg_shuffle (req : AnalyzeRequest) (packing : PackingResult) : List String :=
  let shuffle_r := (req.workload.shuffle_read_mb.getD 0)
  let shuffle_w := (req.workload.shuffle_write_mb.getD 0)
  let shuffle_gb := (shuffle_r + shuffle_w) / 1024
  if 0 < shuffle_gb ∧ 0 < req.executor.memory_gb then
    let total_executors := req.node.count * packing.executors_per_node
    if 0 < total_executors ∧ 1 / 4 * req.executor.memory_gb < shuffle_gb / (total_executors : ℚ) then
      [shuffleNote]
    else []
  else []

/-- Rule 8 of `_risk_notes`: high data skew. -/
def seg_skew (req : AnalyzeRequest) : List String :=
  match req.workload.data_skew with
  | some DataSkew.high => [skewNote]
  | _ => []

/-- Rule 9 of `_risk_notes`: `spot_pct > 50`. -/
def seg_spot (req : AnalyzeRequest) : List String :=
  match req.workload.spot_pct with
  | none => []
  | some spot => if 50 < spot then [spotNote spot] else []

/-- `_risk_notes`: optional risk flags (advisory), appended in the fixed
source order of the nine rules. -/
def _risk_notes (req : AnalyzeRequest) (packing : PackingResult) : List String :=
  seg_oom req ++ seg_epn packing ++ seg_partitions req packing ++
    seg_input_data req packing ++ seg_concurrent req ++ seg_peak req ++
    seg_shuffle req packing ++ seg_skew req ++ seg_spot req

/-- `_do_analyze`: compute packing, cost, recommendation and risk notes. -/
def _do_analyze (request : AnalyzeRequest) : AnalyzeResponse :=
  let assumptions :=
    match request.assumptions with
    | some a => a
    | none => { reserve_cores := 0, reserve_memory_gb := 0 }
  let packing := compute_packing request.node request.executor assumptions
  let cost := compute_cost request.node request.workload packing request.utilization_factor
  let rcmd := recommend request.node request.executor request.workload assumptions packing cost
  let risk := _risk_notes request packing
  { packing := packing, cost := cost, recommendation := rcmd, risk_notes := risk }

/-! ## Arithmetic helper lemmas -/

/-- Rounding an integer is the identity. -/
theorem pyRoundInt_intCast (k : ℤ) : pyRoundInt (k : ℚ) = k := by
  simp [pyRoundInt]

/-- Rounding a nonnegative rational gives a nonnegative integer. -/
theorem pyRoundInt_nonneg {x : ℚ} (h : 0 ≤ x) : 0 ≤ pyRoundInt x := by
  have hf : (0 : ℤ) ≤ ⌊x⌋ := Int.floor_nonneg.mpr h
  simp only [pyRoundInt]
  split
  · exact hf
  · split
    · omega
    · split <;> omega

/-- Rounding a rational bounded by an integer stays bounded by it. -/
theorem pyRoundInt_le_of_le_intCast {x : ℚ} {n : ℤ} (h : x ≤ (n : ℚ)) :
    pyRoundInt x ≤ n := by
  have hfl : ⌊x⌋ ≤ n := by
    have := Int.floor_le_floor h
    simpa using this
  have hceil : ∀ h2 : (⌊x⌋ : ℚ) < x, ⌊x⌋ + 1 ≤ n := by
    intro h2
    have hlt : ⌊x⌋ < ⌈x⌉ := by
      have hx : x ≤ (⌈x⌉ : ℚ) := Int.le_ceil x
      exact_mod_cast lt_of_lt_of_le h2 hx
    have hcn : ⌈x⌉ ≤ n := Int.ceil_le.mpr h
    omega
  simp only [pyRoundInt]
  split
  · exact hfl
  · rename_i h1
    split
    · rename_i h2
      have : (⌊x⌋ : ℚ) < x := by
        have : (0 : ℚ) < x - ⌊x⌋ := lt_trans (by norm_num) h2
        linarith
      exact hceil this
    · rename_i h2
      have heq : x - (⌊x⌋ : ℚ) = 1 / 2 := le_antisymm (not_lt.mp h2) (not_lt.mp h1)
      have : (⌊x⌋ : ℚ) < x := by linarith
      split
      · exact hfl
      · exact hceil this

/-- `roundTo` keeps a value of `[0, 1]` inside `[0, 1]`. -/
theorem roundTo_mem_unit {n : ℕ} {x : ℚ} (h0 : 0 ≤ x) (h1 : x ≤ 1) :
    0 ≤ roundTo n x ∧ roundTo n x ≤ 1 := by
  have hpow : (0 : ℚ) < 10 ^ n := by positivity
  have hr0 : (0 : ℤ) ≤ pyRoundInt (x * 10 ^ n) := pyRoundInt_nonneg (by positivity)
  have hr1 : pyRoundInt (x * 10 ^ n) ≤ (10 ^ n : ℤ) := by
    apply pyRoundInt_le_of_le_intCast
    push_cast
    nlinarith
  constructor
  · unfold roundTo
    apply div_nonneg _ (le_of_lt hpow)
    exact_mod_cast hr0
  · unfold roundTo
    rw [div_le_one hpow]
    exact_mod_cast hr1

/-- `roundTo` of a nonnegative value is nonnegative. -/
theorem roundTo_nonneg {n : ℕ} {x : ℚ} (h : 0 ≤ x) : 0 ≤ roundTo n x := by
  have hpow : (0 : ℚ) < 10 ^ n := by positivity
  unfold roundTo
  apply div_nonneg _ (le_of_lt hpow)
  exact_mod_cast pyRoundInt_nonneg (by positivity)

/-- `roundTo` is idempotent. -/
theorem roundTo_roundTo (n : ℕ) (x : ℚ) : roundTo n (roundTo n x) = roundTo n x := by
  have hpow : (10 : ℚ) ^ n ≠ 0 := by positivity
  unfold roundTo
  rw [div_mul_cancel₀ _ hpow, pyRoundInt_intCast]

/-- `intPy` on an integer is the identity. -/
theorem intPy_intCast (k : ℤ) : intPy (k : ℚ) = k := by
  unfold intPy
  split
  · simp
  · rw [← Int.cast_neg, Int.floor_intCast]
    omega

/-! ## Packing theorems -/

/-- C4: when `effective_cores ≤ 0` or `effective_mem ≤ 0`,
`compute_packing` returns (totally, without any exception) the degenerate
result with `executors_per_node = 0`, both utilizations `0`, all waste
fractions `1` and `efficiency_score = 0`. -/
theorem compute_packing_degenerate (node : NodeConfig) (executor : ExecutorConfig)
    (a : Assumptions)
    (h : (node.cores : ℚ) - (a.reserve_cores : ℚ) ≤ 0 ∨
      node.memory_gb - a.reserve_memory_gb ≤ 0) :
    compute_packing node executor a =
      { executors_per_node := 0
        cpu_utilization := 0
        mem_utilization := 0
        cpu_waste := 1
        mem_waste := 1
        waste := 1
        efficiency_score := 0 } := by
  simp only [compute_packing]
  rw [if_pos h]

/-- Witness for `compute_packing_degenerate` at a concrete input with
`reserve_cores` equal to the node cores. -/
theorem compute_packing_degenerate_witness :
    (((4 : ℤ) : ℚ) - ((4 : ℤ) : ℚ) ≤ 0 ∨ (16 : ℚ) - 0 ≤ 0) ∧
      compute_packing { cores := 4, memory_gb := 16, hourly_cost_usd := 1, count := 1 }
          { cores := 2, memory_gb := 8 } { reserve_cores := 4, reserve_memory_gb := 0 } =
        { executors_per_node := 0
          cpu_utilization := 0
          mem_utilization := 0
          cpu_waste := 1
          mem_waste := 1
          waste := 1
          efficiency_score := 0 } :=
  ⟨by norm_num,
    compute_packing_degenerate
      { cores := 4, memory_gb := 16, hourly_cost_usd := 1, count := 1 }
      { cores := 2, memory_gb := 8 } { reserve_cores := 4, reserve_memory_gb := 0 }
      (by norm_num)⟩

/-- C1 counterexample: at node `(cores 7, memory 64)`, executor
`(cores 3, memory 6)` and no reserves, `executors_per_node = 2` but the
returned `cpu_utilization` is `0.8571`, not the exact fraction
`(2 × 3) / 7` claimed (the code rounds the fraction to 4 decimals). -/
theorem compute_packing_cpu_utilization_rounded :
    (compute_packing { cores := 7, memory_gb := 64, hourly_cost_usd := 1, count := 1 }
        { cores := 3, memory_gb := 6 } { reserve_cores := 0, reserve_memory_gb := 0 }).executors_per_node = 2 ∧
    (compute_packing { cores := 7, memory_gb := 64, hourly_cost_usd := 1, count := 1 }
        { cores := 3, memory_gb := 6 } { reserve_cores := 0, reserve_memory_gb := 0 }).cpu_utilization =
      8571 / 10000 ∧
    (compute_packing { cores := 7, memory_gb := 64, hourly_cost_usd := 1, count := 1 }
        { cores := 3, memory_gb := 6 } { reserve_cores := 0, reserve_memory_gb := 0 }).cpu_utilization ≠
      ((2 : ℚ) * 3) / 7 := by
  refine ⟨?_, ?_, ?_⟩ <;> norm_num [compute_packing, roundTo, pyRoundInt]

/-- C1 (amended): with positive executor shape and positive effective
capacity, `compute_packing` returns
`executors_per_node = min ⌊effC / c⌋ ⌊effM / m⌋`, the utilization and
waste fields equal to the exact fractions rounded half-to-even at 4
decimal places, `waste` the rounded `max` of the two waste fractions with
`0 ≤ waste ≤ 1`, and `efficiency_score = round(100 × (1 − waste))`
(computed from the unrounded waste) clamped to `[0, 100]`. -/
theorem compute_packing_positive_spec (node : NodeConfig) (executor : ExecutorConfig)
    (a : Assumptions)
    (hc : 0 < executor.cores) (hm : 0 < executor.memory_gb)
    (hC : 0 < (node.cores : ℚ) - (a.reserve_cores : ℚ))
    (hM : 0 < node.memory_gb - a.reserve_memory_gb) :
    let effC : ℚ := (node.cores : ℚ) - (a.reserve_cores : ℚ)
    let effM : ℚ := node.memory_gb - a.reserve_memory_gb
    let epn : ℤ := min ⌊effC / (executor.cores : ℚ)⌋ ⌊effM / executor.memory_gb⌋
    let u_cpu : ℚ := (epn : ℚ) * (executor.cores : ℚ) / effC
    let u_mem : ℚ := (epn : ℚ) * executor.memory_gb / effM
    let wst : ℚ := max (1 - u_cpu) (1 - u_mem)
    let p := compute_packing node executor a
    p.executors_per_node = epn ∧
    p.cpu_utilization = roundTo 4 u_cpu ∧
    p.mem_utilization = roundTo 4 u_mem ∧
    p.cpu_waste = roundTo 4 (1 - u_cpu) ∧
    p.mem_waste = roundTo 4 (1 - u_mem) ∧
    p.waste = roundTo 4 wst ∧
    (0 ≤ p.waste ∧ p.waste ≤ 1) ∧
    p.efficiency_score = min 100 (max 0 (pyRoundInt (100 * (1 - wst)))) := by
  intro effC effM epn u_cpu u_mem wst p
  have hne : ¬(effC ≤ 0 ∨ effM ≤ 0) := by
    push_neg
    exact ⟨hC, hM⟩
  have hp : p =
      { executors_per_node := epn
        cpu_utilization := roundTo 4 u_cpu
        mem_utilization := roundTo 4 u_mem
        cpu_waste := roundTo 4 (1 - u_cpu)
        mem_waste := roundTo 4 (1 - u_mem)
        waste := roundTo 4 wst
        efficiency_score := min 100 (max 0 (pyRoundInt (100 * (1 - wst)))) } := by
    show compute_packing node executor a = _
    simp only [compute_packing]
    rw [if_neg hne, if_pos hc, if_pos hm, if_pos (ne_of_gt hC), if_pos (ne_of_gt hM)]
  have hcQ : (0 : ℚ) < (executor.cores : ℚ) := by exact_mod_cast hc
  have hepn_cpu : (epn : ℚ) ≤ effC / (executor.cores : ℚ) := by
    refine le_trans ?_ (Int.floor_le _)
    exact_mod_cast min_le_left _ _
  have hepn_mem : (epn : ℚ) ≤ effM / executor.memory_gb := by
    refine le_trans ?_ (Int.floor_le _)
    exact_mod_cast min_le_right _ _
  have hepn0 : (0 : ℚ) ≤ (epn : ℚ) := by
    have h1 : (0 : ℤ) ≤ ⌊effC / (executor.cores : ℚ)⌋ :=
      Int.floor_nonneg.mpr (div_nonneg hC.le hcQ.le)
    have h2 : (0 : ℤ) ≤ ⌊effM / executor.memory_gb⌋ :=
      Int.floor_nonneg.mpr (div_nonneg hM.le hm.le)
    exact_mod_cast le_min h1 h2
  have hu_cpu0 : 0 ≤ u_cpu := div_nonneg (mul_nonneg hepn0 hcQ.le) hC.le
  have hu_cpu1 : u_cpu ≤ 1 := by
    rw [div_le_one hC]
    calc (epn : ℚ) * (executor.cores : ℚ) ≤ effC / (executor.cores : ℚ) * (executor.cores : ℚ) :=
          mul_le_mul_of_nonneg_right hepn_cpu hcQ.le
      _ = effC := div_mul_cancel₀ _ (ne_of_gt hcQ)
  have hu_mem0 : 0 ≤ u_mem := div_nonneg (mul_nonneg hepn0 hm.le) hM.le
  have hu_mem1 : u_mem ≤ 1 := by
    rw [div_le_one hM]
    calc (epn : ℚ) * executor.memory_gb ≤ effM / executor.memory_gb * executor.memory_gb :=
          mul_le_mul_of_nonneg_right hepn_mem hm.le
      _ = effM := div_mul_cancel₀ _ (ne_of_gt hm)
  have hw0 : 0 ≤ wst := le_trans (by linarith) (le_max_left (1 - u_cpu) (1 - u_mem))
  have hw1 : wst ≤ 1 := max_le (by linarith) (by linarith)
  obtain ⟨hb0, hb1⟩ := roundTo_mem_unit (n := 4) hw0 hw1
  rw [hp]
  refine ⟨rfl, rfl, rfl, rfl, rfl, rfl, ⟨hb0, hb1⟩, rfl⟩

/-- Witness for `compute_packing_positive_spec` at node `(16, 64)`,
executor `(4, 16)`, reserves `(1, 4)`: effective capacity `(15, 60)`,
`executors_per_node = 3`. -/
theorem compute_packing_positive_spec_witness :
    ((0 : ℤ) < 4 ∧ (0 : ℚ) < 16 ∧
      (0 : ℚ) < ((16 : ℤ) : ℚ) - ((1 : ℤ) : ℚ) ∧ (0 : ℚ) < (64 : ℚ) - 4) ∧
    (let effC : ℚ := ((16 : ℤ) : ℚ) - ((1 : ℤ) : ℚ)
     let effM : ℚ := (64 : ℚ) - 4
     let epn : ℤ := min ⌊effC / ((4 : ℤ) : ℚ)⌋ ⌊effM / (16 : ℚ)⌋
     let u_cpu : ℚ := (epn : ℚ) * ((4 : ℤ) : ℚ) / effC
     let u_mem : ℚ := (epn : ℚ) * (16 : ℚ) / effM
     let wst : ℚ := max (1 - u_cpu) (1 - u_mem)
     let p := compute_packing { cores := 16, memory_gb := 64, hourly_cost_usd := 1, count := 1 }
       { cores := 4, memory_gb := 16 } { reserve_cores := 1, reserve_memory_gb := 4 }
     p.executors_per_node = epn ∧
     p.cpu_utilization = roundTo 4 u_cpu ∧
     p.mem_utilization = roundTo 4 u_mem ∧
     p.cpu_waste = roundTo 4 (1 - u_cpu) ∧
     p.mem_waste = roundTo 4 (1 - u_mem) ∧
     p.waste = roundTo 4 wst ∧
     (0 ≤ p.waste ∧ p.waste ≤ 1) ∧
     p.efficiency_score = min 100 (max 0 (pyRoundInt (100 * (1 - wst))))) :=
  ⟨⟨by decide, by norm_num, by norm_num, by norm_num⟩,
    compute_packing_positive_spec
      { cores := 16, memory_gb := 64, hourly_cost_usd := 1, count := 1 }
      { cores := 4, memory_gb := 16 } { reserve_cores := 1, reserve_memory_gb := 4 }
      (by decide) (by norm_num) (by norm_num) (by norm_num)⟩

/-! ## Cost theorems -/

/-- The utilization factor used by `compute_cost` is always positive. -/
theorem uFactor_pos (u : Option ℚ) : 0 < uFactor u := by
  match u with
  | none => norm_num [uFactor]
  | some v =>
    simp only [uFactor]
    split
    · rename_i h
      exact h.1
    · norm_num

/-- C5 counterexample: with `hourly_cost_usd = 0.444`, one node, a
60-minute job once a day and packing waste `0.5`, the code emits
`waste_cost_monthly_usd = 6.6` (chaining the already-rounded daily waste
cost), while rounding applied only at the output boundary of the
unrounded chain would give `6.66`. -/
theorem compute_cost_chained_rounding_counterexample :
    let node : NodeConfig := { cores := 16, memory_gb := 64, hourly_cost_usd := 444 / 1000, count := 1 }
    let w : WorkloadConfig := { avg_runtime_minutes := 60, jobs_per_day := 1 }
    let p := compute_packing node { cores := 8, memory_gb := 16 }
      { reserve_cores := 0, reserve_memory_gb := 0 }
    p.waste = 1 / 2 ∧
    (compute_cost node w p none).waste_cost_monthly_usd = 33 / 5 ∧
    roundTo 2 (daily_cost_raw node w * uFactor none * p.waste * 30) = 333 / 50 ∧
    (33 / 5 : ℚ) ≠ 333 / 50 := by
  refine ⟨?_, ?_, ?_, by norm_num⟩ <;>
    norm_num [compute_packing, compute_cost, daily_cost_raw, hourly_cluster_cost, uFactor,
      roundTo, pyRoundInt]

/-- C5 (amended): `compute_cost` rounds at each step of the chain: the
emitted daily cost is `round₂(daily_raw × u)`, the daily waste cost is
`round₂(daily_cost_usd × packing.waste)` (from the already-rounded daily
cost), the monthly waste cost is `round₂(waste_cost_daily_usd × 30)`, and
all four monetary outputs are non-negative for non-negative inputs. -/
theorem compute_cost_rounding_spec (node : NodeConfig) (w : WorkloadConfig)
    (p : PackingResult) (u : Option ℚ) :
    let cr := compute_cost node w p u
    cr.hourly_cluster_cost_usd = roundTo 2 (hourly_cluster_cost node) ∧
    cr.daily_cost_usd = roundTo 2 (daily_cost_raw node w * uFactor u) ∧
    cr.waste_cost_daily_usd = roundTo 2 (cr.daily_cost_usd * p.waste) ∧
    cr.waste_cost_monthly_usd = roundTo 2 (cr.waste_cost_daily_usd * 30) ∧
    (0 ≤ node.hourly_cost_usd → 0 ≤ node.count → 0 ≤ w.avg_runtime_minutes →
      0 ≤ w.jobs_per_day → 0 ≤ p.waste →
      0 ≤ cr.hourly_cluster_cost_usd ∧ 0 ≤ cr.daily_cost_usd ∧
        0 ≤ cr.waste_cost_daily_usd ∧ 0 ≤ cr.waste_cost_monthly_usd) := by
  intro cr
  have h1 : cr.hourly_cluster_cost_usd = roundTo 2 (hourly_cluster_cost node) := rfl
  have h2 : cr.daily_cost_usd = roundTo 2 (daily_cost_raw node w * uFactor u) := rfl
  have h3 : cr.waste_cost_daily_usd = roundTo 2 (cr.daily_cost_usd * p.waste) := rfl
  have h4 : cr.waste_cost_monthly_usd = roundTo 2 (cr.waste_cost_daily_usd * 30) := rfl
  refine ⟨h1, h2, h3, h4, ?_⟩
  intro hP hN hR hJ hw
  have hNQ : (0 : ℚ) ≤ (node.count : ℚ) := by exact_mod_cast hN
  have hhc : 0 ≤ hourly_cluster_cost node := mul_nonneg hP hNQ
  have hdr : 0 ≤ daily_cost_raw node w :=
    mul_nonneg (mul_nonneg hhc (by positivity)) hJ
  have hd : 0 ≤ cr.daily_cost_usd := by
    rw [h2]
    exact roundTo_nonneg (mul_nonneg hdr (uFactor_pos u).le)
  have hwd : 0 ≤ cr.waste_cost_daily_usd := by
    rw [h3]
    exact roundTo_nonneg (mul_nonneg hd hw)
  have hwm : 0 ≤ cr.waste_cost_monthly_usd := by
    rw [h4]
    exact roundTo_nonneg (mul_nonneg hwd (by norm_num))
  exact ⟨by rw [h1]; exact roundTo_nonneg hhc, hd, hwd, hwm⟩

/-- Witness for `compute_cost_rounding_spec` at the cost-with-waste
scenario: hourly `2`, `5` nodes, 30-minute jobs 20× a day, waste `0.5`. -/
theorem compute_cost_rounding_spec_witness :
    ((0 : ℚ) ≤ 2 ∧ (0 : ℤ) ≤ 5 ∧ (0 : ℚ) ≤ 30 ∧ (0 : ℚ) ≤ 20 ∧
      (0 : ℚ) ≤ (compute_packing { cores := 16, memory_gb := 64, hourly_cost_usd := 2, count := 5 }
        { cores := 8, memory_gb := 16 } { reserve_cores := 0, reserve_memory_gb := 0 }).waste) ∧
    (0 ≤ (compute_cost { cores := 16, memory_gb := 64, hourly_cost_usd := 2, count := 5 }
        { avg_runtime_minutes := 30, jobs_per_day := 20 }
        (compute_packing { cores := 16, memory_gb := 64, hourly_cost_usd := 2, count := 5 }
          { cores := 8, memory_gb := 16 } { reserve_cores := 0, reserve_memory_gb := 0 })
        none).hourly_cluster_cost_usd ∧
      0 ≤ (compute_cost { cores := 16, memory_gb := 64, hourly_cost_usd := 2, count := 5 }
        { avg_runtime_minutes := 30, jobs_per_day := 20 }
        (compute_packing { cores := 16, memory_gb := 64, hourly_cost_usd := 2, count := 5 }
          { cores := 8, memory_gb := 16 } { reserve_cores := 0, reserve_memory_gb := 0 })
        none).daily_cost_usd ∧
      0 ≤ (compute_cost { cores := 16, memory_gb := 64, hourly_cost_usd := 2, count := 5 }
        { avg_runtime_minutes := 30, jobs_per_day := 20 }
        (compute_packing { cores := 16, memory_gb := 64, hourly_cost_usd := 2, count := 5 }
          { cores := 8, memory_gb := 16 } { reserve_cores := 0, reserve_memory_gb := 0 })
        none).waste_cost_daily_usd ∧
      0 ≤ (compute_cost { cores := 16, memory_gb := 64, hourly_cost_usd := 2, count := 5 }
        { avg_runtime_minutes := 30, jobs_per_day := 20 }
        (compute_packing { cores := 16, memory_gb := 64, hourly_cost_usd := 2, count := 5 }
          { cores := 8, memory_gb := 16 } { reserve_cores := 0, reserve_memory_gb := 0 })
        none).waste_cost_monthly_usd) :=
  ⟨⟨by norm_num, by norm_num, by norm_num, by norm_num,
      by norm_num [compute_packing, roundTo, pyRoundInt]⟩,
    (compute_cost_rounding_spec { cores := 16, memory_gb := 64, hourly_cost_usd := 2, count := 5 }
      { avg_runtime_minutes := 30, jobs_per_day := 20 }
      (compute_packing { cores := 16, memory_gb := 64, hourly_cost_usd := 2, count := 5 }
        { cores := 8, memory_gb := 16 } { reserve_cores := 0, reserve_memory_gb := 0 })
      none).2.2.2.2 (by norm_num) (by norm_num) (by norm_num) (by norm_num)
      (by norm_num [compute_packing, roundTo, pyRoundInt])⟩

/-- C6 counterexample: holding packing fixed (waste `1`), tripling
`node.count` does not triple the emitted `daily_cost_usd`:
`0.38 ≠ 3 × 0.12` (the 2-decimal output rounding breaks exact
linearity). -/
theorem compute_cost_not_linear_counterexample :
    let node1 : NodeConfig := { cores := 4, memory_gb := 16, hourly_cost_usd := 1 / 8, count := 1 }
    let node3 : NodeConfig := { cores := 4, memory_gb := 16, hourly_cost_usd := 1 / 8, count := 3 }
    let w : WorkloadConfig := { avg_runtime_minutes := 60, jobs_per_day := 1 }
    let p := compute_packing node1 { cores := 8, memory_gb := 32 }
      { reserve_cores := 0, reserve_memory_gb := 0 }
    node3.count = 3 * node1.count ∧
    (compute_cost node1 w p none).daily_cost_usd = 3 / 25 ∧
    (compute_cost node3 w p none).daily_cost_usd = 19 / 50 ∧
    (19 / 50 : ℚ) ≠ 3 * (3 / 25) := by
  refine ⟨by norm_num, ?_, ?_, by norm_num⟩ <;>
    norm_num [compute_packing, compute_cost, daily_cost_raw, hourly_cluster_cost, uFactor,
      roundTo, pyRoundInt]

/-- C6 (amended): holding the packing fixed, the pre-rounding cost
quantities are exactly linear in `node.count` and in
`avg_runtime_minutes × jobs_per_day`; the emitted figures are the
2-decimal roundings of those quantities (with the waste figures chaining
from the rounded daily cost), so they are linear only up to that output
rounding. -/
theorem compute_cost_linear_before_rounding (node : NodeConfig) (w : WorkloadConfig)
    (p : PackingResult) (u : Option ℚ) (kc : ℤ) (k : ℚ) :
    hourly_cluster_cost { node with count := kc * node.count } =
      (kc : ℚ) * hourly_cluster_cost node ∧
    daily_cost_raw { node with count := kc * node.count } w =
      (kc : ℚ) * daily_cost_raw node w ∧
    (∀ R J : ℚ, R * J = k * (w.avg_runtime_minutes * w.jobs_per_day) →
      daily_cost_raw node { w with avg_runtime_minutes := R, jobs_per_day := J } =
        k * daily_cost_raw node w) ∧
    (compute_cost node w p u).hourly_cluster_cost_usd = roundTo 2 (hourly_cluster_cost node) ∧
    (compute_cost node w p u).daily_cost_usd = roundTo 2 (daily_cost_raw node w * uFactor u) ∧
    (compute_cost node w p u).waste_cost_daily_usd =
      roundTo 2 ((compute_cost node w p u).daily_cost_usd * p.waste) ∧
    (compute_cost node w p u).waste_cost_monthly_usd =
      roundTo 2 ((compute_cost node w p u).waste_cost_daily_usd * 30) := by
  refine ⟨?_, ?_, ?_, rfl, rfl, rfl, rfl⟩
  · simp only [hourly_cluster_cost]
    push_cast
    ring
  · simp only [daily_cost_raw, hourly_cluster_cost]
    push_cast
    ring
  · intro R J h
    simp only [daily_cost_raw, hourly_cluster_cost]
    have hre : node.hourly_cost_usd * (node.count : ℚ) * (R / 60) * J =
        node.hourly_cost_usd * (node.count : ℚ) / 60 * (R * J) := by ring
    rw [hre, h]
    ring

/-- Witness for `compute_cost_linear_before_rounding`: scaling the
runtime–frequency product by `k = 4` (runtime `×2`, jobs `×2`) scales the
raw daily cost by `4`. -/
theorem compute_cost_linear_before_rounding_witness :
    ((60 : ℚ) * 2 = 4 * ((30 : ℚ) * 1)) ∧
    daily_cost_raw { cores := 4, memory_gb := 16, hourly_cost_usd := 2, count := 5 }
        { avg_runtime_minutes := 60, jobs_per_day := 2 } =
      4 * daily_cost_raw { cores := 4, memory_gb := 16, hourly_cost_usd := 2, count := 5 }
        { avg_runtime_minutes := 30, jobs_per_day := 1 } :=
  ⟨by norm_num,
    (compute_cost_linear_before_rounding
      { cores := 4, memory_gb := 16, hourly_cost_usd := 2, count := 5 }
      { avg_runtime_minutes := 30, jobs_per_day := 1 }
      { executors_per_node := 0, cpu_utilization := 0, mem_utilization := 0, cpu_waste := 1,
        mem_waste := 1, waste := 1, efficiency_score := 0 }
      none 1 4).2.2.1 60 2 (by norm_num)⟩

/-- C8: the utilization factor defaults to `1` when absent or outside
`(0, 1]`, equals the given value inside `(0, 1]`, the emitted daily cost
is the rounding of the raw daily cost scaled by that factor, and before
rounding the daily cost with factor `v ∈ (0, 1]` is exactly `v` times the
daily cost with the default factor. -/
theorem compute_cost_utilization_factor_spec (node : NodeConfig) (w : WorkloadConfig)
    (p : PackingResult) (v : ℚ) :
    uFactor none = 1 ∧
    (¬(0 < v ∧ v ≤ 1) → uFactor (some v) = 1) ∧
    (0 < v → v ≤ 1 → uFactor (some v) = v) ∧
    (compute_cost node w p (some v)).daily_cost_usd =
      roundTo 2 (daily_cost_raw node w * uFactor (some v)) ∧
    (0 < v → v ≤ 1 →
      daily_cost_raw node w * uFactor (some v) =
        v * (daily_cost_raw node w * uFactor none)) := by
  refine ⟨rfl, ?_, ?_, rfl, ?_⟩
  · intro h
    simp only [uFactor, if_neg h]
  · intro h1 h2
    simp only [uFactor, if_pos (And.intro h1 h2)]
  · intro h1 h2
    simp only [uFactor, if_pos (And.intro h1 h2)]
    ring

/-- Witness for `compute_cost_utilization_factor_spec` at `v = 1/2`. -/
theorem compute_cost_utilization_factor_spec_witness :
    ((0 : ℚ) < 1 / 2 ∧ (1 / 2 : ℚ) ≤ 1) ∧
    (uFactor (some (1 / 2)) = 1 / 2 ∧
      daily_cost_raw { cores := 4, memory_gb := 16, hourly_cost_usd := 2, count := 5 }
          { avg_runtime_minutes := 30, jobs_per_day := 1 } * uFactor (some (1 / 2)) =
        1 / 2 * (daily_cost_raw { cores := 4, memory_gb := 16, hourly_cost_usd := 2, count := 5 }
          { avg_runtime_minutes := 30, jobs_per_day := 1 } * uFactor none)) :=
  ⟨⟨by norm_num, by norm_num⟩,
    ⟨(compute_cost_utilization_factor_spec
        { cores := 4, memory_gb := 16, hourly_cost_usd := 2, count := 5 }
        { avg_runtime_minutes := 30, jobs_per_day := 1 }
        { executors_per_node := 0, cpu_utilization := 0, mem_utilization := 0, cpu_waste := 1,
          mem_waste := 1, waste := 1, efficiency_score := 0 }
        (1 / 2)).2.2.1 (by norm_num) (by norm_num),
      (compute_cost_utilization_factor_spec
        { cores := 4, memory_gb := 16, hourly_cost_usd := 2, count := 5 }
        { avg_runtime_minutes := 30, jobs_per_day := 1 }
        { executors_per_node := 0, cpu_utilization := 0, mem_utilization := 0, cpu_waste := 1,
          mem_waste := 1, waste := 1, efficiency_score := 0 }
        (1 / 2)).2.2.2.2 (by norm_num) (by norm_num)⟩⟩

/-! ## Forecast theorems -/

/-- From month `m ≥ 2` on, every iteration of the forecast loop
multiplies both running values by `(1 + g)` (also when `g = 0`, where the
multiplication is skipped but the value is unchanged). -/
theorem forecastLoop_closed (g : ℚ) : ∀ (k m : ℕ), 2 ≤ m → ∀ (cur recm : ℚ),
    forecastLoop g k m cur recm =
      (List.range k).map fun i =>
        { month := m + i
          current_usd := roundTo 2 (cur * (1 + g) ^ (i + 1))
          recommended_usd := roundTo 2 (recm * (1 + g) ^ (i + 1))
          savings_usd := roundTo 2 ((cur - recm) * (1 + g) ^ (i + 1)) } := by
  intro k
  induction k with
  | zero => intro m hm cur recm; rfl
  | succ k ih =>
    intro m hm cur recm
    have hcond : (1 < m ∧ g ≠ 0) ∨ g = 0 := by
      by_cases hg : g = 0
      · exact Or.inr hg
      · exact Or.inl ⟨by omega, hg⟩
    have hcur2 : (if 1 < m ∧ g ≠ 0 then cur * (1 + g) else cur) = cur * (1 + g) := by
      rcases hcond with h | h
      · rw [if_pos h]
      · subst h
        simp
    have hrecm2 : (if 1 < m ∧ g ≠ 0 then recm * (1 + g) else recm) = recm * (1 + g) := by
      rcases hcond with h | h
      · rw [if_pos h]
      · subst h
        simp
    show ({ month := m
            current_usd := roundTo 2 (if 1 < m ∧ g ≠ 0 then cur * (1 + g) else cur)
            recommended_usd := roundTo 2 (if 1 < m ∧ g ≠ 0 then recm * (1 + g) else recm)
            savings_usd := roundTo 2 ((if 1 < m ∧ g ≠ 0 then cur * (1 + g) else cur) -
              (if 1 < m ∧ g ≠ 0 then recm * (1 + g) else recm)) } : ForecastEntry) ::
          forecastLoop g k (m + 1)
            (if 1 < m ∧ g ≠ 0 then cur * (1 + g) else cur)
            (if 1 < m ∧ g ≠ 0 then recm * (1 + g) else recm) = _
    rw [hcur2, hrecm2, ih (m + 1) (by omega) (cur * (1 + g)) (recm * (1 + g))]
    rw [List.range_succ_eq_map, List.map_cons, List.map_map]
    congr 1
    · congr 1 <;> first
        | omega
        | (congr 1; try simp only [Nat.succ_eq_add_one]
           ring)
    · apply List.map_congr_left
      intro i _
      simp only [Function.comp_apply, Nat.succ_eq_add_one]
      congr 1 <;> first
        | omega
        | (congr 1; ring)

/-- The forecast loop started at month `1` (where the first iteration
does not multiply) produces the closed geometric form. -/
theorem forecastLoop_one (g : ℚ) (k : ℕ) (cur recm : ℚ) :
    forecastLoop g k 1 cur recm =
      (List.range k).map fun i =>
        { month := i + 1
          current_usd := roundTo 2 (cur * (1 + g) ^ i)
          recommended_usd := roundTo 2 (recm * (1 + g) ^ i)
          savings_usd := roundTo 2 ((cur - recm) * (1 + g) ^ i) } := by
  cases k with
  | zero => rfl
  | succ k =>
    show ({ month := 1
            current_usd := roundTo 2 (if 1 < 1 ∧ g ≠ 0 then cur * (1 + g) else cur)
            recommended_usd := roundTo 2 (if 1 < 1 ∧ g ≠ 0 then recm * (1 + g) else recm)
            savings_usd := roundTo 2 ((if 1 < 1 ∧ g ≠ 0 then cur * (1 + g) else cur) -
              (if 1 < 1 ∧ g ≠ 0 then recm * (1 + g) else recm)) } : ForecastEntry) ::
          forecastLoop g k 2
            (if 1 < 1 ∧ g ≠ 0 then cur * (1 + g) else cur)
            (if 1 < 1 ∧ g ≠ 0 then recm * (1 + g) else recm) = _
    have hno : ¬(1 < 1 ∧ g ≠ 0) := by
      intro h
      exact absurd h.1 (by omega)
    rw [if_neg hno, if_neg hno, forecastLoop_closed g k 2 (by omega) cur recm]
    rw [List.range_succ_eq_map, List.map_cons, List.map_map]
    congr 1
    · congr 1 <;> first
        | omega
        | (congr 1; try simp only [Nat.succ_eq_add_one]
           ring)
    · apply List.map_congr_left
      intro i _
      simp only [Function.comp_apply, Nat.succ_eq_add_one]
      congr 1 <;> first
        | omega
        | (congr 1; ring)

/-- Closed form of `compute_forecast`: month `i + 1` carries the base
values scaled by `(1 + g) ^ i`, each field rounded to 2 decimals when
emitted. -/
theorem compute_forecast_closed (cur recm : ℚ) (months : ℕ) (growth : Option ℚ) :
    compute_forecast cur recm months growth =
      (List.range months).map fun i =>
        { month := i + 1
          current_usd := roundTo 2 (cur * (1 + (match growth with
              | some r => r / 100 / 12
              | none => 0)) ^ i)
          recommended_usd := roundTo 2 (recm * (1 + (match growth with
              | some r => r / 100 / 12
              | none => 0)) ^ i)
          savings_usd := roundTo 2 ((cur - recm) * (1 + (match growth with
              | some r => r / 100 / 12
              | none => 0)) ^ i) } := by
  simp only [compute_forecast]
  exact forecastLoop_one _ months cur recm

/-- C7 (amended): for `months ≥ 1`, `compute_forecast` returns exactly
`months` entries with month fields `1, …, months` in order; with monthly
growth factor `g` (`(growth_rate_pct/100)/12` when provided, else `0`),
the month-`n` entry carries `round₂(base × (1+g)^(n−1))` for both values
and `round₂` of the unrounded difference as savings; with zero or absent
growth every month carries the 2-decimal rounding of the starting
values. -/
theorem compute_forecast_spec (cur recm : ℚ) (months : ℕ) (growth : Option ℚ)
    (hm : 1 ≤ months) :
    (compute_forecast cur recm months growth).length = months ∧
    (∀ i : ℕ, i < months →
      (compute_forecast cur recm months growth)[i]? =
        some { month := i + 1
               current_usd := roundTo 2 (cur * (1 + (match growth with
                   | some r => r / 100 / 12
                   | none => 0)) ^ i)
               recommended_usd := roundTo 2 (recm * (1 + (match growth with
                   | some r => r / 100 / 12
                   | none => 0)) ^ i)
               savings_usd := roundTo 2 ((cur - recm) * (1 + (match growth with
                   | some r => r / 100 / 12
                   | none => 0)) ^ i) }) ∧
    (growth = none ∨ growth = some 0 →
      ∀ e ∈ compute_forecast cur recm months growth,
        e.current_usd = roundTo 2 cur ∧ e.recommended_usd = roundTo 2 recm) := by
  refine ⟨?_, ?_, ?_⟩
  · rw [compute_forecast_closed]
    simp
  · intro i hi
    rw [compute_forecast_closed]
    rw [List.getElem?_map]
    rw [List.getElem?_range hi]
    rfl
  · intro hg e he
    have hg0 : (match growth with
        | some r => (r : ℚ) / 100 / 12
        | none => 0) = 0 := by
      rcases hg with h | h <;> subst h <;> norm_num
    rw [compute_forecast_closed] at he
    simp only [hg0, add_zero, one_pow, mul_one, List.mem_map] at he
    obtain ⟨i, _, rfl⟩ := he
    exact ⟨rfl, rfl⟩

/-- C7 counterexample: with starting value `0.125` the emitted
`current_usd` of month 1 is `0.12`, not the starting value itself as the
claim states (fields are rounded to 2 decimals on emission). -/
theorem compute_forecast_rounds_counterexample :
    (compute_forecast (1 / 8) 0 1 none).map ForecastEntry.current_usd = [3 / 25] ∧
    (3 / 25 : ℚ) ≠ 1 / 8 := by
  constructor
  · rw [compute_forecast_closed]
    simp only [List.range_succ, List.range_zero, List.nil_append, List.map_cons, List.map_nil]
    norm_num [roundTo, pyRoundInt]
  · norm_num

/-- Witness for `compute_forecast_spec` at two months with 12% annual
growth. -/
theorem compute_forecast_spec_witness :
    (1 ≤ 2) ∧
    ((compute_forecast 100 50 2 (some 12)).length = 2 ∧
      (∀ i : ℕ, i < 2 →
        (compute_forecast 100 50 2 (some 12))[i]? =
          some { month := i + 1
                 current_usd := roundTo 2 (100 * (1 + (12 : ℚ) / 100 / 12) ^ i)
                 recommended_usd := roundTo 2 (50 * (1 + (12 : ℚ) / 100 / 12) ^ i)
                 savings_usd := roundTo 2 ((100 - 50) * (1 + (12 : ℚ) / 100 / 12) ^ i) }) ∧
      (some (12 : ℚ) = none ∨ some (12 : ℚ) = some 0 →
        ∀ e ∈ compute_forecast 100 50 2 (some 12),
          e.current_usd = roundTo 2 100 ∧ e.recommended_usd = roundTo 2 50)) :=
  ⟨by norm_num, compute_forecast_spec 100 50 2 (some 12) (by norm_num)⟩

/-! ## Recommendation search: candidate abstractions -/

/-- The packing computed for candidate pair `cm = (c, m)` inside the
search loop. -/
def candPack (node : NodeConfig) (a : Assumptions) (cm : ℤ × ℤ) : PackingResult :=
  compute_packing node { cores := cm.1, memory_gb := (cm.2 : ℚ) } a

/-- A candidate passes the guardrails: nonzero executors per node and at
most `MAX_EXECUTORS_PER_NODE`. -/
def candPasses (node : NodeConfig) (a : Assumptions) (cm : ℤ × ℤ) : Prop :=
  (candPack node a cm).executors_per_node ≠ 0 ∧
    (candPack node a cm).executors_per_node ≤ MAX_EXECUTORS_PER_NODE

instance (node : NodeConfig) (a : Assumptions) (cm : ℤ × ℤ) :
    Decidable (candPasses node a cm) := by
  unfold candPasses
  exact inferInstance

/-- The waste of a candidate, the comparison key of the search. -/
def candWaste (node : NodeConfig) (a : Assumptions) (cm : ℤ × ℤ) : ℚ :=
  (candPack node a cm).waste

/-- The `best` tuple recorded for a winning candidate. -/
def mkBest (node : NodeConfig) (workload : WorkloadConfig) (a : Assumptions)
    (cc : CostResult) (cm : ℤ × ℤ) : BestEntry :=
  { waste := (candPack node a cm).waste
    waste_monthly := (compute_cost node workload (candPack node a cm) none).waste_cost_monthly_usd
    score := (candPack node a cm).efficiency_score
    c := (cm.1 : ℚ)
    m := (cm.2 : ℚ)
    savings := cc.waste_cost_monthly_usd -
      (compute_cost node workload (candPack node a cm) none).waste_cost_monthly_usd }

/-- `candidateStep` in terms of the guardrail predicate and best tuple. -/
theorem candidateStep_eq (node : NodeConfig) (w : WorkloadConfig) (a : Assumptions)
    (cc : CostResult) (best : Option BestEntry) (cm : ℤ × ℤ) :
    candidateStep node w a cc best cm =
      if candPasses node a cm then
        match best with
        | none => some (mkBest node w a cc cm)
        | some b =>
          if candWaste node a cm < b.waste then some (mkBest node w a cc cm) else some b
      else best := by
  show (if (candPack node a cm).executors_per_node = 0 then best
      else if MAX_EXECUTORS_PER_NODE < (candPack node a cm).executors_per_node then best
      else
        match best with
        | none => some (mkBest node w a cc cm)
        | some b =>
          if (candPack node a cm).waste < b.waste then some (mkBest node w a cc cm)
          else some b) = _
  by_cases h0 : (candPack node a cm).executors_per_node = 0
  · rw [if_pos h0, if_neg]
    intro hp
    exact hp.1 h0
  · rw [if_neg h0]
    by_cases h1 : MAX_EXECUTORS_PER_NODE < (candPack node a cm).executors_per_node
    · rw [if_pos h1, if_neg]
      intro hp
      exact absurd hp.2 (not_le.mpr h1)
    · rw [if_neg h1, if_pos (show candPasses node a cm from And.intro h0 (not_lt.mp h1))]
      rfl

/-- One step of the fold yields `none` only from `none` on a filtered
candidate. -/
theorem candidateStep_none_iff (node : NodeConfig) (w : WorkloadConfig) (a : Assumptions)
    (cc : CostResult) (acc : Option BestEntry) (cm : ℤ × ℤ) :
    candidateStep node w a cc acc cm = none ↔ acc = none ∧ ¬ candPasses node a cm := by
  rw [candidateStep_eq]
  by_cases hp : candPasses node a cm
  · rw [if_pos hp]
    cases acc with
    | none => simp [hp]
    | some b =>
      show (if candWaste node a cm < b.waste then some (mkBest node w a cc cm) else some b) =
          none ↔ some b = none ∧ ¬ candPasses node a cm
      constructor
      · intro h
        by_cases hlt : candWaste node a cm < b.waste
        · rw [if_pos hlt] at h
          simp at h
        · rw [if_neg hlt] at h
          simp at h
      · rintro ⟨h, -⟩
        simp at h
  · rw [if_neg hp]
    simp [hp]

/-- The candidate fold produces `none` exactly when the accumulator was
`none` and no candidate of the list passes the guardrails. -/
theorem foldl_candidateStep_none_iff (node : NodeConfig) (w : WorkloadConfig)
    (a : Assumptions) (cc : CostResult) (l : List (ℤ × ℤ)) (acc : Option BestEntry) :
    l.foldl (candidateStep node w a cc) acc = none ↔
      acc = none ∧ ∀ cm ∈ l, ¬ candPasses node a cm := by
  induction l generalizing acc with
  | nil => simp
  | cons x t ih =>
    rw [List.foldl_cons, ih, candidateStep_none_iff]
    constructor
    · rintro ⟨⟨ha, hx⟩, ht⟩
      refine ⟨ha, ?_⟩
      intro cm hcm
      rcases List.mem_cons.mp hcm with h | h
      · subst h
        exact hx
      · exact ht cm h
    · rintro ⟨ha, hall⟩
      exact ⟨⟨ha, hall x (List.mem_cons_self x t)⟩,
        fun cm hcm => hall cm (List.mem_cons_of_mem x hcm)⟩

/-- When the candidate fold returns `some b`, `b` records the first
candidate (in enumeration order) achieving the minimum waste among the
candidates that pass the guardrails: every earlier passing candidate has
strictly larger waste, every passing candidate has at least its waste. -/
theorem foldl_candidateStep_some (node : NodeConfig) (w : WorkloadConfig)
    (a : Assumptions) (cc : CostResult) :
    ∀ (l : List (ℤ × ℤ)) (b : BestEntry),
      l.foldl (candidateStep node w a cc) none = some b →
      ∃ l₁ cm l₂, l = l₁ ++ cm :: l₂ ∧ candPasses node a cm ∧
        b = mkBest node w a cc cm ∧
        (∀ y ∈ l₁, candPasses node a y → candWaste node a cm < candWaste node a y) ∧
        (∀ y ∈ l, candPasses node a y → candWaste node a cm ≤ candWaste node a y) := by
  intro l
  induction l using List.reverseRecOn with
  | nil =>
    intro b h
    simp at h
  | append_singleton t x ih =>
    intro b h
    rw [List.foldl_append, List.foldl_cons, List.foldl_nil] at h
    cases hacc : t.foldl (candidateStep node w a cc) none with
    | none =>
      rw [hacc, candidateStep_eq] at h
      have hall : ∀ cm ∈ t, ¬ candPasses node a cm :=
        ((foldl_candidateStep_none_iff node w a cc t none).mp hacc).2
      by_cases hp : candPasses node a x
      · rw [if_pos hp] at h
        have hb : b = mkBest node w a cc x := by
          have h2 : some (mkBest node w a cc x) = some b := h
          exact (Option.some.injEq _ _ ▸ h2).symm
        refine ⟨t, x, [], rfl, hp, hb, ?_, ?_⟩
        · intro y hy hpy
          exact absurd hpy (hall y hy)
        · intro y hy hpy
          rcases List.mem_append.mp hy with h | h
          · exact absurd hpy (hall y h)
          · have : y = x := by simpa using h
            subst this
            exact le_refl _
      · rw [if_neg hp] at h
        simp at h
    | some b0 =>
      obtain ⟨l₁, cm₀, l₂, ht, hp₀, hb0, hstrict, hle⟩ := ih b0 hacc
      rw [hacc, candidateStep_eq] at h
      have hb0w : b0.waste = candWaste node a cm₀ := by
        rw [hb0]
        rfl
      by_cases hp : candPasses node a x
      · rw [if_pos hp] at h
        have h2 : (if candWaste node a x < b0.waste then some (mkBest node w a cc x)
            else some b0) = some b := h
        by_cases hlt : candWaste node a x < b0.waste
        · rw [if_pos hlt] at h2
          have hb : b = mkBest node w a cc x := (Option.some.injEq _ _ ▸ h2).symm
          refine ⟨t, x, [], rfl, hp, hb, ?_, ?_⟩
          · intro y hy hpy
            have h3 : candWaste node a cm₀ ≤ candWaste node a y := by
              apply hle y _ hpy
              rw [ht] at hy
              exact ht ▸ hy
            calc candWaste node a x < b0.waste := hlt
              _ = candWaste node a cm₀ := hb0w
              _ ≤ candWaste node a y := h3
          · intro y hy hpy
            rcases List.mem_append.mp hy with hmem | hmem
            · have h3 : candWaste node a cm₀ ≤ candWaste node a y := hle y hmem hpy
              have : candWaste node a x < candWaste node a y := by
                calc candWaste node a x < b0.waste := hlt
                  _ = candWaste node a cm₀ := hb0w
                  _ ≤ candWaste node a y := h3
              exact this.le
            · have : y = x := by simpa using hmem
              subst this
              exact le_refl _
        · rw [if_neg hlt] at h2
          have hb : b = b0 := (Option.some.injEq _ _ ▸ h2).symm
          refine ⟨l₁, cm₀, l₂ ++ [x], ?_, hp₀, hb.trans hb0, hstrict, ?_⟩
          · rw [ht, List.append_assoc]
            rfl
          · intro y hy hpy
            rcases List.mem_append.mp hy with hmem | hmem
            · exact hle y hmem hpy
            · have : y = x := by simpa using hmem
              subst this
              rw [← hb0w]
              exact not_lt.mp hlt
      · rw [if_neg hp] at h
        have hb : b = b0 := (Option.some.injEq _ _ ▸ h).symm
        refine ⟨l₁, cm₀, l₂ ++ [x], ?_, hp₀, hb.trans hb0, hstrict, ?_⟩
        · rw [ht, List.append_assoc]
          rfl
        · intro y hy hpy
          rcases List.mem_append.mp hy with hmem | hmem
          · exact hle y hmem hpy
          · have : y = x := by simpa using hmem
            subst this
            exact absurd hpy hp

/-- Membership in the memory-candidate list: exactly the integers from
the minimum-memory guardrail up to `M` inclusive. -/
theorem mem_memCandidates {M : ℚ} {m : ℤ} :
    m ∈ memCandidates M ↔ MIN_EXECUTOR_MEMORY_GB ≤ m ∧ (m : ℚ) ≤ M := by
  have hmax : max MIN_EXECUTOR_MEMORY_GB 1 = 6 := by decide
  have h66 : MIN_EXECUTOR_MEMORY_GB = 6 := by decide
  unfold memCandidates
  rw [hmax, h66]
  constructor
  · intro h
    have hpm : (m : ℚ) ≤ M := by
      have := List.mem_takeWhile_imp h
      simpa using this
    have hmem : m ∈ (List.range (intPy M + 1 - 6).toNat).map fun (i : ℕ) => (6 : ℤ) + (i : ℤ) :=
      (List.takeWhile_sublist _).mem h
    obtain ⟨i, -, hi⟩ := List.mem_map.mp hmem
    refine ⟨?_, hpm⟩
    omega
  · rintro ⟨h6, hle⟩
    have hM : (0 : ℚ) ≤ M := by
      calc (0 : ℚ) ≤ (m : ℚ) := by exact_mod_cast le_trans (by norm_num) h6
        _ ≤ M := hle
    have hfl : intPy M = ⌊M⌋ := if_pos hM
    have hmf : m ≤ ⌊M⌋ := Int.le_floor.mpr hle
    have hself : ((List.range (intPy M + 1 - 6).toNat).map fun (i : ℕ) => (6 : ℤ) + (i : ℤ)).takeWhile
        (fun (m2 : ℤ) => decide ((m2 : ℚ) ≤ M)) =
        (List.range (intPy M + 1 - 6).toNat).map fun (i : ℕ) => (6 : ℤ) + (i : ℤ) := by
      rw [List.takeWhile_eq_self_iff]
      intro x hx
      obtain ⟨i, hir, hi⟩ := List.mem_map.mp hx
      have hilen : i < (intPy M + 1 - 6).toNat := List.mem_range.mp hir
      have hxle : x ≤ ⌊M⌋ := by omega
      simp only [decide_eq_true_eq]
      exact le_trans (by exact_mod_cast hxle) (Int.floor_le M)
    rw [hself, List.mem_map]
    refine ⟨(m - 6).toNat, List.mem_range.mpr ?_, ?_⟩ <;> omega

/-- Membership in the candidate grid of the recommendation search. -/
theorem mem_candidatePairs {C : ℤ} {M : ℚ} {c m : ℤ} :
    (c, m) ∈ candidatePairs C M ↔
      c ∈ CORE_CANDIDATES ∧ c ≤ C ∧ MIN_EXECUTOR_MEMORY_GB ≤ m ∧ (m : ℚ) ≤ M := by
  simp only [candidatePairs, List.mem_flatMap, List.mem_filter, List.mem_map,
    decide_eq_true_eq, Prod.mk.injEq]
  constructor
  · rintro ⟨c2, ⟨hc2, hc2C⟩, m2, hm2, hcc, hmm⟩
    subst hcc
    subst hmm
    exact ⟨hc2, hc2C, mem_memCandidates.mp hm2⟩
  · rintro ⟨hc, hcC, h6, hle⟩
    exact ⟨c, ⟨hc, hcC⟩, m, mem_memCandidates.mpr ⟨h6, hle⟩, rfl, rfl⟩

/-- Every core candidate is at least 1. -/
theorem CORE_CANDIDATES_pos : ∀ c ∈ CORE_CANDIDATES, (1 : ℤ) ≤ c := by
  decide

/-- `executors_per_node` of a candidate packing in the non-degenerate
search region is the min of the two floor divisions. -/
theorem candPack_executors (node : NodeConfig) (a : Assumptions) (c m : ℤ)
    (hC : 0 < node.cores - a.reserve_cores) (hM : 0 < node.memory_gb - a.reserve_memory_gb)
    (hc : 0 < c) (hm : 0 < m) :
    (candPack node a (c, m)).executors_per_node =
      min ⌊((node.cores - a.reserve_cores : ℤ) : ℚ) / (c : ℚ)⌋
        ⌊(node.memory_gb - a.reserve_memory_gb) / (m : ℚ)⌋ := by
  have hCQ : (0 : ℚ) < (node.cores : ℚ) - (a.reserve_cores : ℚ) := by
    have : ((0 : ℤ) : ℚ) < ((node.cores - a.reserve_cores : ℤ) : ℚ) := by exact_mod_cast hC
    push_cast at this
    linarith
  have hne : ¬((node.cores : ℚ) - (a.reserve_cores : ℚ) ≤ 0 ∨
      node.memory_gb - a.reserve_memory_gb ≤ 0) := by
    push_neg
    exact ⟨hCQ, hM⟩
  have hmQ : (0 : ℚ) < (m : ℚ) := by exact_mod_cast hm
  unfold candPack compute_packing
  rw [if_neg hne]
  dsimp only
  rw [if_pos hc, if_pos hmQ]
  push_cast
  rfl

/-- The candidate `executors_per_node` is nonnegative over the search
region. -/
theorem candPack_executors_nonneg (node : NodeConfig) (a : Assumptions) (c m : ℤ)
    (hC : 0 < node.cores - a.reserve_cores) (hM : 0 < node.memory_gb - a.reserve_memory_gb)
    (hc : 0 < c) (hm : 0 < m) :
    0 ≤ (candPack node a (c, m)).executors_per_node := by
  rw [candPack_executors node a c m hC hM hc hm]
  have hCQ : (0 : ℚ) ≤ ((node.cores - a.reserve_cores : ℤ) : ℚ) := by
    exact_mod_cast hC.le
  have h1 : (0 : ℤ) ≤ ⌊((node.cores - a.reserve_cores : ℤ) : ℚ) / (c : ℚ)⌋ :=
    Int.floor_nonneg.mpr (div_nonneg hCQ (by exact_mod_cast hc.le))
  have h2 : (0 : ℤ) ≤ ⌊(node.memory_gb - a.reserve_memory_gb) / (m : ℚ)⌋ :=
    Int.floor_nonneg.mpr (div_nonneg hM.le (by exact_mod_cast hm.le))
  exact le_min h1 h2

/-- C3: `recommend` returns `none` (totally — never an exception) exactly
when the effective capacity is non-positive or every enumerated candidate
is filtered by the guardrails, and any returned configuration has
`executors_per_node` between 1 and `MAX_EXECUTORS_PER_NODE` — also after
the final recomputation of `executors_per_node` for the winning pair,
which coincides with the winning candidate's packing value. -/
theorem recommend_none_iff_and_bounds (node : NodeConfig) (cx : ExecutorConfig)
    (w : WorkloadConfig) (a : Assumptions) (cp : PackingResult) (cc : CostResult) :
    (recommend node cx w a cp cc = none ↔
      (node.cores - a.reserve_cores ≤ 0 ∨ node.memory_gb - a.reserve_memory_gb ≤ 0 ∨
        ∀ cm ∈ candidatePairs (node.cores - a.reserve_cores)
          (node.memory_gb - a.reserve_memory_gb), ¬ candPasses node a cm)) ∧
    (∀ r, recommend node cx w a cp cc = some r →
      1 ≤ r.executors_per_node ∧ r.executors_per_node ≤ MAX_EXECUTORS_PER_NODE) := by
  by_cases hCM : node.cores - a.reserve_cores ≤ 0 ∨ node.memory_gb - a.reserve_memory_gb ≤ 0
  · have hnone : recommend node cx w a cp cc = none := by
      unfold recommend
      rw [if_pos hCM]
    constructor
    · rw [hnone]
      simp only [true_iff]
      rcases hCM with h | h
      · exact Or.inl h
      · exact Or.inr (Or.inl h)
    · intro r hr
      rw [hnone] at hr
      exact absurd hr (by simp)
  · have hrec : recommend node cx w a cp cc =
        (match (candidatePairs (node.cores - a.reserve_cores)
            (node.memory_gb - a.reserve_memory_gb)).foldl
            (candidateStep node w a cc) none with
        | none => none
        | some b =>
          some { executor_cores := intPy b.c
                 executor_memory_gb := b.m
                 executors_per_node :=
                   min ⌊((node.cores - a.reserve_cores : ℤ) : ℚ) / (intPy b.c : ℚ)⌋
                     ⌊(node.memory_gb - a.reserve_memory_gb) / (intPy b.m : ℚ)⌋
                 efficiency_score := b.score
                 waste := roundTo 4 b.waste
                 waste_cost_monthly_usd := roundTo 2 b.waste_monthly
                 savings_vs_current_monthly_usd := roundTo 2 b.savings }) := by
      unfold recommend
      rw [if_neg hCM]
    push_neg at hCM
    obtain ⟨hC, hM⟩ := hCM
    cases hfold : (candidatePairs (node.cores - a.reserve_cores)
        (node.memory_gb - a.reserve_memory_gb)).foldl (candidateStep node w a cc) none with
    | none =>
      rw [hfold] at hrec
      have hall := ((foldl_candidateStep_none_iff node w a cc _ none).mp hfold).2
      constructor
      · rw [hrec]
        simp only [true_iff]
        exact Or.inr (Or.inr hall)
      · intro r hr
        rw [hrec] at hr
        exact absurd hr (by simp)
    | some b =>
      obtain ⟨l₁, cm, l₂, hl, hpass, hb, hstrict, hle⟩ :=
        foldl_candidateStep_some node w a cc _ b hfold
      have hmem : cm ∈ candidatePairs (node.cores - a.reserve_cores)
          (node.memory_gb - a.reserve_memory_gb) := by
        rw [hl]
        exact List.mem_append_right l₁ (List.mem_cons_self cm l₂)
      have hmemf : cm.1 ∈ CORE_CANDIDATES ∧ cm.1 ≤ node.cores - a.reserve_cores ∧
          MIN_EXECUTOR_MEMORY_GB ≤ cm.2 ∧ (cm.2 : ℚ) ≤
            node.memory_gb - a.reserve_memory_gb := by
        have := @mem_candidatePairs (node.cores - a.reserve_cores)
          (node.memory_gb - a.reserve_memory_gb) cm.1 cm.2
        rw [Prod.mk.eta] at this
        exact this.mp hmem
      have hc1 : (0 : ℤ) < cm.1 :=
        lt_of_lt_of_le (by norm_num) (CORE_CANDIDATES_pos cm.1 hmemf.1)
      have hm1 : (0 : ℤ) < cm.2 := by
        have h6 : (6 : ℤ) ≤ cm.2 := hmemf.2.2.1
        omega
      have hbc : b.c = ((cm.1 : ℤ) : ℚ) := by rw [hb]; rfl
      have hbm : b.m = ((cm.2 : ℤ) : ℚ) := by rw [hb]; rfl
      rw [hfold] at hrec
      have hsome : recommend node cx w a cp cc =
          some { executor_cores := intPy b.c
                 executor_memory_gb := b.m
                 executors_per_node :=
                   min ⌊((node.cores - a.reserve_cores : ℤ) : ℚ) / (intPy b.c : ℚ)⌋
                     ⌊(node.memory_gb - a.reserve_memory_gb) / (intPy b.m : ℚ)⌋
                 efficiency_score := b.score
                 waste := roundTo 4 b.waste
                 waste_cost_monthly_usd := roundTo 2 b.waste_monthly
                 savings_vs_current_monthly_usd := roundTo 2 b.savings } := hrec
      rw [hbc, hbm, intPy_intCast, intPy_intCast,
        ← candPack_executors node a cm.1 cm.2 hC hM hc1 hm1] at hsome
      constructor
      · rw [hsome]
        constructor
        · intro h
          exact absurd h (by simp)
        · intro hcon
          exfalso
          rcases hcon with h | h | h
          · omega
          · exact absurd h (not_le.mpr hM)
          · exact absurd hpass (h cm hmem)
      · intro r hr
        rw [hsome] at hr
        have hrq : r = { executor_cores := cm.1
                         executor_memory_gb := ((cm.2 : ℤ) : ℚ)
                         executors_per_node := (candPack node a (cm.1, cm.2)).executors_per_node
                         efficiency_score := b.score
                         waste := roundTo 4 b.waste
                         waste_cost_monthly_usd := roundTo 2 b.waste_monthly
                         savings_vs_current_monthly_usd := roundTo 2 b.savings } :=
          (Option.some.injEq _ _ ▸ hr).symm
        have hre : r.executors_per_node = (candPack node a (cm.1, cm.2)).executors_per_node := by
          rw [hrq]
        have hpass2 : (candPack node a (cm.1, cm.2)).executors_per_node ≠ 0 ∧
            (candPack node a (cm.1, cm.2)).executors_per_node ≤ MAX_EXECUTORS_PER_NODE := by
          have hcmeta : (cm.1, cm.2) = cm := Prod.mk.eta
          rw [hcmeta]
          exact hpass
        have hnn : 0 ≤ (candPack node a (cm.1, cm.2)).executors_per_node :=
          candPack_executors_nonneg node a cm.1 cm.2 hC hM hc1 hm1
        rw [hre]
        have hne0 := hpass2.1
        refine ⟨by omega, hpass2.2⟩

/-- The `waste` field of any packing result is a fixed point of 4-decimal
rounding (it is emitted rounded, or exactly `1` in the degenerate case). -/
theorem compute_packing_waste_round_idem (node : NodeConfig) (executor : ExecutorConfig)
    (a : Assumptions) :
    roundTo 4 (compute_packing node executor a).waste = (compute_packing node executor a).waste := by
  unfold compute_packing
  by_cases h : (node.cores : ℚ) - (a.reserve_cores : ℚ) ≤ 0 ∨
      node.memory_gb - a.reserve_memory_gb ≤ 0
  · rw [if_pos h]
    norm_num [roundTo, pyRoundInt]
  · rw [if_neg h]
    dsimp only
    exact roundTo_roundTo 4 _

/-- C2: when `recommend` returns a configuration, the candidate grid is
exactly `{1,2,3,4,5,6,8} ∩ [1, C]` crossed with the integers in
`[6 GB, M]`, and the returned `(cores, memory)` pair is a candidate that
passes the guardrails, attains the minimum `packing.waste` among all
passing candidates, and is the first such candidate in (cores-ascending,
memory-ascending) enumeration order: every strictly earlier passing
candidate has strictly larger waste, so equal-waste ties keep the
first-seen candidate and no secondary key (cost or efficiency score) is
consulted. -/
theorem recommend_min_waste (node : NodeConfig) (cx : ExecutorConfig) (w : WorkloadConfig)
    (a : Assumptions) (cp : PackingResult) (cc : CostResult) (r : RecommendedConfig)
    (h : recommend node cx w a cp cc = some r) :
    (∀ c m : ℤ, ((c, m) ∈ candidatePairs (node.cores - a.reserve_cores)
        (node.memory_gb - a.reserve_memory_gb) ↔
      c ∈ CORE_CANDIDATES ∧ c ≤ node.cores - a.reserve_cores ∧
        MIN_EXECUTOR_MEMORY_GB ≤ m ∧ (m : ℚ) ≤ node.memory_gb - a.reserve_memory_gb)) ∧
    ∃ cm l₁ l₂,
      candidatePairs (node.cores - a.reserve_cores) (node.memory_gb - a.reserve_memory_gb) =
        l₁ ++ cm :: l₂ ∧
      candPasses node a cm ∧
      r.executor_cores = cm.1 ∧
      r.executor_memory_gb = (cm.2 : ℚ) ∧
      r.waste = candWaste node a cm ∧
      (∀ y ∈ candidatePairs (node.cores - a.reserve_cores)
          (node.memory_gb - a.reserve_memory_gb),
        candPasses node a y → candWaste node a cm ≤ candWaste node a y) ∧
      (∀ y ∈ l₁, candPasses node a y → candWaste node a cm < candWaste node a y) := by
  refine ⟨fun c m => mem_candidatePairs, ?_⟩
  by_cases hCM : node.cores - a.reserve_cores ≤ 0 ∨ node.memory_gb - a.reserve_memory_gb ≤ 0
  · exfalso
    have hnone : recommend node cx w a cp cc = none := by
      unfold recommend
      rw [if_pos hCM]
    rw [hnone] at h
    exact absurd h (by simp)
  · have hrec : recommend node cx w a cp cc =
        (match (candidatePairs (node.cores - a.reserve_cores)
            (node.memory_gb - a.reserve_memory_gb)).foldl
            (candidateStep node w a cc) none with
        | none => none
        | some b =>
          some { executor_cores := intPy b.c
                 executor_memory_gb := b.m
                 executors_per_node :=
                   min ⌊((node.cores - a.reserve_cores : ℤ) : ℚ) / (intPy b.c : ℚ)⌋
                     ⌊(node.memory_gb - a.reserve_memory_gb) / (intPy b.m : ℚ)⌋
                 efficiency_score := b.score
                 waste := roundTo 4 b.waste
                 waste_cost_monthly_usd := roundTo 2 b.waste_monthly
                 savings_vs_current_monthly_usd := roundTo 2 b.savings }) := by
      unfold recommend
      rw [if_neg hCM]
    cases hfold : (candidatePairs (node.cores - a.reserve_cores)
        (node.memory_gb - a.reserve_memory_gb)).foldl (candidateStep node w a cc) none with
    | none =>
      exfalso
      rw [hfold] at hrec
      rw [hrec] at h
      exact absurd h (by simp)
    | some b =>
      obtain ⟨l₁, cm, l₂, hl, hpass, hb, hstrict, hle⟩ :=
        foldl_candidateStep_some node w a cc _ b hfold
      have hbc : b.c = ((cm.1 : ℤ) : ℚ) := by rw [hb]; rfl
      have hbm : b.m = ((cm.2 : ℤ) : ℚ) := by rw [hb]; rfl
      have hbw : b.waste = candWaste node a cm := by rw [hb]; rfl
      rw [hfold] at hrec
      have hsome : recommend node cx w a cp cc =
          some { executor_cores := intPy b.c
                 executor_memory_gb := b.m
                 executors_per_node :=
                   min ⌊((node.cores - a.reserve_cores : ℤ) : ℚ) / (intPy b.c : ℚ)⌋
                     ⌊(node.memory_gb - a.reserve_memory_gb) / (intPy b.m : ℚ)⌋
                 efficiency_score := b.score
                 waste := roundTo 4 b.waste
                 waste_cost_monthly_usd := roundTo 2 b.waste_monthly
                 savings_vs_current_monthly_usd := roundTo 2 b.savings } := hrec
      rw [hsome] at h
      have hrq : r = { executor_cores := intPy b.c
                       executor_memory_gb := b.m
                       executors_per_node :=
                         min ⌊((node.cores - a.reserve_cores : ℤ) : ℚ) / (intPy b.c : ℚ)⌋
                           ⌊(node.memory_gb - a.reserve_memory_gb) / (intPy b.m : ℚ)⌋
                       efficiency_score := b.score
                       waste := roundTo 4 b.waste
                       waste_cost_monthly_usd := roundTo 2 b.waste_monthly
                       savings_vs_current_monthly_usd := roundTo 2 b.savings } :=
        (Option.some.injEq _ _ ▸ h).symm
      refine ⟨cm, l₁, l₂, hl, hpass, ?_, ?_, ?_, hle, hstrict⟩
      · rw [hrq]
        show intPy b.c = cm.1
        rw [hbc, intPy_intCast]
      · rw [hrq]
        show b.m = ((cm.2 : ℤ) : ℚ)
        exact hbm
      · rw [hrq]
        show roundTo 4 b.waste = candWaste node a cm
        rw [hbw]
        exact compute_packing_waste_round_idem node _ a

/-- Witness for `recommend_min_waste` at a 1-core, 6 GB node, whose only
candidate is `(1, 6)` with zero waste. -/
theorem recommend_min_waste_witness :
    (recommend { cores := 1, memory_gb := 6, hourly_cost_usd := 1, count := 1 }
        { cores := 1, memory_gb := 6 } { avg_runtime_minutes := 60, jobs_per_day := 1 }
        { reserve_cores := 0, reserve_memory_gb := 0 }
        { executors_per_node := 0, cpu_utilization := 0, mem_utilization := 0, cpu_waste := 1,
          mem_waste := 1, waste := 1, efficiency_score := 0 }
        { hourly_cluster_cost_usd := 0, daily_cost_usd := 0, waste_cost_daily_usd := 0,
          waste_cost_monthly_usd := 0 } =
      some { executor_cores := 1, executor_memory_gb := 6, executors_per_node := 1,
             efficiency_score := 100, waste := 0, waste_cost_monthly_usd := 0,
             savings_vs_current_monthly_usd := 0 }) ∧
    ((∀ c m : ℤ, ((c, m) ∈ candidatePairs (1 - 0) ((6 : ℚ) - 0) ↔
        c ∈ CORE_CANDIDATES ∧ c ≤ 1 - 0 ∧ MIN_EXECUTOR_MEMORY_GB ≤ m ∧
          (m : ℚ) ≤ (6 : ℚ) - 0)) ∧
      ∃ cm l₁ l₂, candidatePairs (1 - 0) ((6 : ℚ) - 0) = l₁ ++ cm :: l₂ ∧
        candPasses { cores := 1, memory_gb := 6, hourly_cost_usd := 1, count := 1 }
          { reserve_cores := 0, reserve_memory_gb := 0 } cm ∧
        (1 : ℤ) = cm.1 ∧
        (6 : ℚ) = (cm.2 : ℚ) ∧
        (0 : ℚ) = candWaste { cores := 1, memory_gb := 6, hourly_cost_usd := 1, count := 1 }
          { reserve_cores := 0, reserve_memory_gb := 0 } cm ∧
        (∀ y ∈ candidatePairs (1 - 0) ((6 : ℚ) - 0),
          candPasses { cores := 1, memory_gb := 6, hourly_cost_usd := 1, count := 1 }
            { reserve_cores := 0, reserve_memory_gb := 0 } y →
          candWaste { cores := 1, memory_gb := 6, hourly_cost_usd := 1, count := 1 }
              { reserve_cores := 0, reserve_memory_gb := 0 } cm ≤
            candWaste { cores := 1, memory_gb := 6, hourly_cost_usd := 1, count := 1 }
              { reserve_cores := 0, reserve_memory_gb := 0 } y) ∧
        (∀ y ∈ l₁, candPasses { cores := 1, memory_gb := 6, hourly_cost_usd := 1, count := 1 }
            { reserve_cores := 0, reserve_memory_gb := 0 } y →
          candWaste { cores := 1, memory_gb := 6, hourly_cost_usd := 1, count := 1 }
              { reserve_cores := 0, reserve_memory_gb := 0 } cm <
            candWaste { cores := 1, memory_gb := 6, hourly_cost_usd := 1, count := 1 }
              { reserve_cores := 0, reserve_memory_gb := 0 } y)) :=
  ⟨by norm_num [recommend, candidatePairs, memCandidates, candidateStep, compute_packing,
      compute_cost, daily_cost_raw, hourly_cluster_cost, uFactor, roundTo, pyRoundInt, intPy,
      CORE_CANDIDATES, MIN_EXECUTOR_MEMORY_GB, MAX_EXECUTORS_PER_NODE, List.range_succ],
    recommend_min_waste
      { cores := 1, memory_gb := 6, hourly_cost_usd := 1, count := 1 }
      { cores := 1, memory_gb := 6 } { avg_runtime_minutes := 60, jobs_per_day := 1 }
      { reserve_cores := 0, reserve_memory_gb := 0 }
      { executors_per_node := 0, cpu_utilization := 0, mem_utilization := 0, cpu_waste := 1,
        mem_waste := 1, waste := 1, efficiency_score := 0 }
      { hourly_cluster_cost_usd := 0, daily_cost_usd := 0, waste_cost_daily_usd := 0,
        waste_cost_monthly_usd := 0 }
      { executor_cores := 1, executor_memory_gb := 6, executors_per_node := 1,
        efficiency_score := 100, waste := 0, waste_cost_monthly_usd := 0,
        savings_vs_current_monthly_usd := 0 }
      (by norm_num [recommend, candidatePairs, memCandidates, candidateStep, compute_packing,
        compute_cost, daily_cost_raw, hourly_cluster_cost, uFactor, roundTo, pyRoundInt, intPy,
        CORE_CANDIDATES, MIN_EXECUTOR_MEMORY_GB, MAX_EXECUTORS_PER_NODE, List.range_succ])⟩

/-- Witness for `recommend_none_iff_and_bounds` at the same 1-core, 6 GB
node: the returned configuration has `executors_per_node = 1`, inside the
guardrail bounds. -/
theorem recommend_none_iff_and_bounds_witness :
    1 ≤ ({ executor_cores := 1, executor_memory_gb := 6, executors_per_node := 1,
           efficiency_score := 100, waste := 0, waste_cost_monthly_usd := 0,
           savings_vs_current_monthly_usd := 0 } : RecommendedConfig).executors_per_node ∧
    ({ executor_cores := 1, executor_memory_gb := 6, executors_per_node := 1,
       efficiency_score := 100, waste := 0, waste_cost_monthly_usd := 0,
       savings_vs_current_monthly_usd := 0 } : RecommendedConfig).executors_per_node ≤
      MAX_EXECUTORS_PER_NODE :=
  (recommend_none_iff_and_bounds
    { cores := 1, memory_gb := 6, hourly_cost_usd := 1, count := 1 }
    { cores := 1, memory_gb := 6 } { avg_runtime_minutes := 60, jobs_per_day := 1 }
    { reserve_cores := 0, reserve_memory_gb := 0 }
    { executors_per_node := 0, cpu_utilization := 0, mem_utilization := 0, cpu_waste := 1,
      mem_waste := 1, waste := 1, efficiency_score := 0 }
    { hourly_cluster_cost_usd := 0, daily_cost_usd := 0, waste_cost_daily_usd := 0,
      waste_cost_monthly_usd := 0 }).2
    { executor_cores := 1, executor_memory_gb := 6, executors_per_node := 1,
      efficiency_score := 100, waste := 0, waste_cost_monthly_usd := 0,
      savings_vs_current_monthly_usd := 0 }
    (by norm_num [recommend, candidatePairs, memCandidates, candidateStep, compute_packing,
      compute_cost, daily_cost_raw, hourly_cluster_cost, uFactor, roundTo, pyRoundInt, intPy,
      CORE_CANDIDATES, MIN_EXECUTOR_MEMORY_GB, MAX_EXECUTORS_PER_NODE, List.range_succ])

/-- C9: candidate costs inside the search are computed with no
utilization-factor argument — equivalently with the default factor `1` —
so `recommend` depends on the caller's (possibly discounted) current cost
only through its `waste_cost_monthly_usd` field; `_do_analyze` passes the
caller's `utilization_factor` into the current cost handed to
`recommend`, and the reported savings compare that current monthly waste
cost against the undiscounted candidate monthly waste cost. -/
theorem recommend_candidate_costs_undiscounted :
    (∀ (n : NodeConfig) (w : WorkloadConfig) (p : PackingResult),
      compute_cost n w p none = compute_cost n w p (some 1)) ∧
    (∀ (node : NodeConfig) (cx : ExecutorConfig) (w : WorkloadConfig) (a : Assumptions)
      (cp : PackingResult) (c₁ c₂ : CostResult),
      c₁.waste_cost_monthly_usd = c₂.waste_cost_monthly_usd →
      recommend node cx w a cp c₁ = recommend node cx w a cp c₂) ∧
    (∀ req : AnalyzeRequest,
      (_do_analyze req).recommendation =
        recommend req.node req.executor req.workload
          (match req.assumptions with
            | some a => a
            | none => { reserve_cores := 0, reserve_memory_gb := 0 })
          (compute_packing req.node req.executor
            (match req.assumptions with
              | some a => a
              | none => { reserve_cores := 0, reserve_memory_gb := 0 }))
          (compute_cost req.node req.workload
            (compute_packing req.node req.executor
              (match req.assumptions with
                | some a => a
                | none => { reserve_cores := 0, reserve_memory_gb := 0 }))
            req.utilization_factor)) ∧
    (∀ (node : NodeConfig) (cx : ExecutorConfig) (w : WorkloadConfig) (a : Assumptions)
      (cp : PackingResult) (cc : CostResult) (r : RecommendedConfig),
      recommend node cx w a cp cc = some r →
      ∃ cm, cm ∈ candidatePairs (node.cores - a.reserve_cores)
          (node.memory_gb - a.reserve_memory_gb) ∧
        r.savings_vs_current_monthly_usd =
          roundTo 2 (cc.waste_cost_monthly_usd -
            (compute_cost node w (candPack node a cm) none).waste_cost_monthly_usd)) := by
  refine ⟨?_, ?_, ?_, ?_⟩
  · intro n w p
    have hu : uFactor none = uFactor (some 1) := by
      norm_num [uFactor]
    unfold compute_cost
    rw [hu]
  · intro node cx w a cp c₁ c₂ h
    have hstep : candidateStep node w a c₁ = candidateStep node w a c₂ := by
      funext best cm
      unfold candidateStep
      rw [h]
    unfold recommend
    rw [hstep]
  · intro req
    rfl
  · intro node cx w a cp cc r h
    by_cases hCM : node.cores - a.reserve_cores ≤ 0 ∨
        node.memory_gb - a.reserve_memory_gb ≤ 0
    · exfalso
      have hnone : recommend node cx w a cp cc = none := by
        unfold recommend
        rw [if_pos hCM]
      rw [hnone] at h
      exact absurd h (by simp)
    · have hrec : recommend node cx w a cp cc =
          (match (candidatePairs (node.cores - a.reserve_cores)
              (node.memory_gb - a.reserve_memory_gb)).foldl
              (candidateStep node w a cc) none with
          | none => none
          | some b =>
            some { executor_cores := intPy b.c
                   executor_memory_gb := b.m
                   executors_per_node :=
                     min ⌊((node.cores - a.reserve_cores : ℤ) : ℚ) / (intPy b.c : ℚ)⌋
                       ⌊(node.memory_gb - a.reserve_memory_gb) / (intPy b.m : ℚ)⌋
                   efficiency_score := b.score
                   waste := roundTo 4 b.waste
                   waste_cost_monthly_usd := roundTo 2 b.waste_monthly
                   savings_vs_current_monthly_usd := roundTo 2 b.savings }) := by
        unfold recommend
        rw [if_neg hCM]
      cases hfold : (candidatePairs (node.cores - a.reserve_cores)
          (node.memory_gb - a.reserve_memory_gb)).foldl (candidateStep node w a cc) none with
      | none =>
        exfalso
        rw [hfold] at hrec
        rw [hrec] at h
        exact absurd h (by simp)
      | some b =>
        obtain ⟨l₁, cm, l₂, hl, hpass, hb, hstrict, hle⟩ :=
          foldl_candidateStep_some node w a cc _ b hfold
        rw [hfold] at hrec
        have hsome : recommend node cx w a cp cc =
            some { executor_cores := intPy b.c
                   executor_memory_gb := b.m
                   executors_per_node :=
                     min ⌊((node.cores - a.reserve_cores : ℤ) : ℚ) / (intPy b.c : ℚ)⌋
                       ⌊(node.memory_gb - a.reserve_memory_gb) / (intPy b.m : ℚ)⌋
                   efficiency_score := b.score
                   waste := roundTo 4 b.waste
                   waste_cost_monthly_usd := roundTo 2 b.waste_monthly
                   savings_vs_current_monthly_usd := roundTo 2 b.savings } := hrec
        rw [hsome] at h
        have hrq : r = { executor_cores := intPy b.c
                         executor_memory_gb := b.m
                         executors_per_node :=
                           min ⌊((node.cores - a.reserve_cores : ℤ) : ℚ) / (intPy b.c : ℚ)⌋
                             ⌊(node.memory_gb - a.reserve_memory_gb) / (intPy b.m : ℚ)⌋
                         efficiency_score := b.score
                         waste := roundTo 4 b.waste
                         waste_cost_monthly_usd := roundTo 2 b.waste_monthly
                         savings_vs_current_monthly_usd := roundTo 2 b.savings } :=
          (Option.some.injEq _ _ ▸ h).symm
        refine ⟨cm, ?_, ?_⟩
        · rw [hl]
          exact List.mem_append_right l₁ (List.mem_cons_self cm l₂)
        · rw [hrq]
          show roundTo 2 b.savings = _
          rw [hb]
          rfl

/-- Witness for `recommend_candidate_costs_undiscounted`: two current
costs that agree on `waste_cost_monthly_usd` but nothing else give the
same recommendation. -/
theorem recommend_candidate_costs_undiscounted_witness :
    ((⟨1, 2, 3, 15⟩ : CostResult).waste_cost_monthly_usd =
      (⟨9, 8, 7, 15⟩ : CostResult).waste_cost_monthly_usd) ∧
    (recommend { cores := 1, memory_gb := 6, hourly_cost_usd := 1, count := 1 }
        { cores := 1, memory_gb := 6 } { avg_runtime_minutes := 60, jobs_per_day := 1 }
        { reserve_cores := 0, reserve_memory_gb := 0 }
        { executors_per_node := 0, cpu_utilization := 0, mem_utilization := 0, cpu_waste := 1,
          mem_waste := 1, waste := 1, efficiency_score := 0 }
        (⟨1, 2, 3, 15⟩ : CostResult) =
      recommend { cores := 1, memory_gb := 6, hourly_cost_usd := 1, count := 1 }
        { cores := 1, memory_gb := 6 } { avg_runtime_minutes := 60, jobs_per_day := 1 }
        { reserve_cores := 0, reserve_memory_gb := 0 }
        { executors_per_node := 0, cpu_utilization := 0, mem_utilization := 0, cpu_waste := 1,
          mem_waste := 1, waste := 1, efficiency_score := 0 }
        (⟨9, 8, 7, 15⟩ : CostResult)) :=
  ⟨rfl,
    recommend_candidate_costs_undiscounted.2.1
      { cores := 1, memory_gb := 6, hourly_cost_usd := 1, count := 1 }
      { cores := 1, memory_gb := 6 } { avg_runtime_minutes := 60, jobs_per_day := 1 }
      { reserve_cores := 0, reserve_memory_gb := 0 }
      { executors_per_node := 0, cpu_utilization := 0, mem_utilization := 0, cpu_waste := 1,
        mem_waste := 1, waste := 1, efficiency_score := 0 }
      (⟨1, 2, 3, 15⟩ : CostResult) (⟨9, 8, 7, 15⟩ : CostResult)
      rfl⟩

/-! ## Risk-note string lemmas -/

/-- Characters of an appended string. -/
theorem string_data_append (s t : String) : (s ++ t).data = s.data ++ t.data := by
  cases s
  cases t
  rfl

/-- `strHead s a`: the string `s` starts with the character `a`. -/
def strHead (s : String) (a : Char) : Prop :=
  ∃ u, s.data = a :: u

/-- Appending on the right preserves the head character. -/
theorem strHead_append {s : String} (t : String) {a : Char} (h : strHead s a) :
    strHead (s ++ t) a := by
  obtain ⟨u, hu⟩ := h
  exact ⟨u ++ t.data, by rw [string_data_append, hu, List.cons_append]⟩

/-- Strings with different head characters differ. -/
theorem ne_of_strHead {s t : String} {a b : Char} (ha : strHead s a) (hb : strHead t b)
    (hab : a ≠ b) : s ≠ t := by
  intro h
  obtain ⟨u, hu⟩ := ha
  obtain ⟨v, hv⟩ := hb
  rw [h, hv] at hu
  injection hu with h1 _
  exact hab h1.symm

theorem strHead_oomNote : strHead oomNote 'E' := ⟨_, rfl⟩

theorem strHead_gcNote : strHead gcNote 'H' := ⟨_, rfl⟩

theorem strHead_partitionHighNote (pc t : ℤ) : strHead (partitionHighNote pc t) 'P' :=
  strHead_append _ (strHead_append _ (strHead_append _ (strHead_append _ ⟨_, rfl⟩)))

theorem strHead_coresHighNote (t pc : ℤ) : strHead (coresHighNote t pc) 'T' :=
  strHead_append _ (strHead_append _ (strHead_append _ (strHead_append _ ⟨_, rfl⟩)))

theorem strHead_inputDataNote (d m : ℚ) : strHead (inputDataNote d m) 'I' :=
  strHead_append _ (strHead_append _ (strHead_append _ (strHead_append _ ⟨_, rfl⟩)))

theorem strHead_concurrentNote (c : ℚ) : strHead (concurrentNote c) 'C' :=
  strHead_append _ (strHead_append _ ⟨_, rfl⟩)

theorem strHead_peakNote (p m : ℚ) : strHead (peakNote p m) 'O' :=
  strHead_append _ (strHead_append _ (strHead_append _ (strHead_append _ ⟨_, rfl⟩)))

theorem strHead_shuffleNote : strHead shuffleNote 'H' := ⟨_, rfl⟩

theorem strHead_skewNote : strHead skewNote 'H' := ⟨_, rfl⟩

theorem strHead_spotNote (s : ℚ) : strHead (spotNote s) 'C' :=
  strHead_append _ (strHead_append _ ⟨_, rfl⟩)

/-- The spot note and the concurrent-jobs note differ (they agree on the
first 8 characters and split at `uses` vs `runs`). -/
theorem spotNote_ne_concurrentNote (s c : ℚ) : spotNote s ≠ concurrentNote c := by
  intro h
  have h2 := congrArg String.data h
  unfold spotNote concurrentNote at h2
  simp only [string_data_append] at h2
  simp at h2

/-- Members of rule 2's segment. -/
theorem mem_seg_epn {x : String} {p : PackingResult} (h : x ∈ seg_epn p) : x = gcNote := by
  unfold seg_epn at h
  split at h
  · simpa using h
  · simp at h

/-- Members of rule 3's segment. -/
theorem mem_seg_partitions {x : String} {req : AnalyzeRequest} {p : PackingResult}
    (h : x ∈ seg_partitions req p) :
    ∃ pc t : ℤ, x = partitionHighNote pc t ∨ x = coresHighNote t pc := by
  unfold seg_partitions at h
  dsimp only at h
  split at h
  · simp at h
  · split at h
    · split at h
      · split at h
        · exact ⟨_, _, Or.inl (by simpa using h)⟩
        · split at h
          · exact ⟨_, _, Or.inr (by simpa using h)⟩
          · simp at h
      · simp at h
    · simp at h

/-- Members of rule 4's segment. -/
theorem mem_seg_input_data {x : String} {req : AnalyzeRequest} {p : PackingResult}
    (h : x ∈ seg_input_data req p) : ∃ d m : ℚ, x = inputDataNote d m := by
  unfold seg_input_data at h
  dsimp only at h
  split at h
  · simp at h
  · split at h
    · split at h
      · split at h
        · exact ⟨_, _, by simpa using h⟩
        · simp at h
      · simp at h
    · simp at h

/-- Members of rule 5's segment. -/
theorem mem_seg_concurrent {x : String} {req : AnalyzeRequest}
    (h : x ∈ seg_concurrent req) : ∃ c : ℚ, x = concurrentNote c := by
  unfold seg_concurrent at h
  split at h
  · simp at h
  · split at h
    · split at h
      · exact ⟨_, by simpa using h⟩
      · split at h
        · exact ⟨_, by simpa using h⟩
        · simp at h
    · simp at h

/-- Members of rule 6's segment. -/
theorem mem_seg_peak {x : String} {req : AnalyzeRequest}
    (h : x ∈ seg_peak req) : ∃ p m : ℚ, x = peakNote p m := by
  unfold seg_peak at h
  split at h
  · simp at h
  · split at h
    · split at h
      · exact ⟨_, _, by simpa using h⟩
      · simp at h
    · simp at h

/-- Members of rule 7's segment. -/
theorem mem_seg_shuffle {x : String} {req : AnalyzeRequest} {p : PackingResult}
    (h : x ∈ seg_shuffle req p) : x = shuffleNote := by
  unfold seg_shuffle at h
  dsimp only at h
  split at h
  · split at h
    · simpa using h
    · simp at h
  · simp at h

/-- Members of rule 8's segment. -/
theorem mem_seg_skew {x : String} {req : AnalyzeRequest}
    (h : x ∈ seg_skew req) : x = skewNote := by
  unfold seg_skew at h
  split at h
  · simpa using h
  · simp at h

/-- Members of rule 9's segment carry a spot share above 50. -/
theorem mem_seg_spot {x : String} {req : AnalyzeRequest}
    (h : x ∈ seg_spot req) :
    ∃ s : ℚ, req.workload.spot_pct = some s ∧ 50 < s ∧ x = spotNote s := by
  unfold seg_spot at h
  split at h
  · simp at h
  · rename_i s hs
    split at h
    · rename_i h50
      exact ⟨s, hs, h50, by simpa using h⟩
    · simp at h

/-- Members of rule 1's segment. -/
theorem mem_seg_oom {x : String} {req : AnalyzeRequest}
    (h : x ∈ seg_oom req) : x = oomNote ∧ req.executor.memory_gb < 6 := by
  unfold seg_oom at h
  split at h
  · rename_i hcond
    exact ⟨by simpa using h, hcond⟩
  · simp at h

/-- The OOM note never arises from rules 2–9. -/
theorem oomNote_only_rule1 (req : AnalyzeRequest) (p : PackingResult) :
    oomNote ∉ seg_epn p ∧ oomNote ∉ seg_partitions req p ∧
      oomNote ∉ seg_input_data req p ∧ oomNote ∉ seg_concurrent req ∧
      oomNote ∉ seg_peak req ∧ oomNote ∉ seg_shuffle req p ∧
      oomNote ∉ seg_skew req ∧ oomNote ∉ seg_spot req := by
  refine ⟨?_, ?_, ?_, ?_, ?_, ?_, ?_, ?_⟩
  · intro h
    exact absurd (mem_seg_epn h) (ne_of_strHead strHead_oomNote strHead_gcNote (by decide))
  · intro h
    obtain ⟨pc, t, hx | hx⟩ := mem_seg_partitions h
    · exact absurd hx (ne_of_strHead strHead_oomNote (strHead_partitionHighNote pc t) (by decide))
    · exact absurd hx (ne_of_strHead strHead_oomNote (strHead_coresHighNote t pc) (by decide))
  · intro h
    obtain ⟨d, m, hx⟩ := mem_seg_input_data h
    exact absurd hx (ne_of_strHead strHead_oomNote (strHead_inputDataNote d m) (by decide))
  · intro h
    obtain ⟨c, hx⟩ := mem_seg_concurrent h
    exact absurd hx (ne_of_strHead strHead_oomNote (strHead_concurrentNote c) (by decide))
  · intro h
    obtain ⟨pk, m, hx⟩ := mem_seg_peak h
    exact absurd hx (ne_of_strHead strHead_oomNote (strHead_peakNote pk m) (by decide))
  · intro h
    exact absurd (mem_seg_shuffle h)
      (ne_of_strHead strHead_oomNote strHead_shuffleNote (by decide))
  · intro h
    exact absurd (mem_seg_skew h) (ne_of_strHead strHead_oomNote strHead_skewNote (by decide))
  · intro h
    obtain ⟨sp, -, -, hx⟩ := mem_seg_spot h
    exact absurd hx (ne_of_strHead strHead_oomNote (strHead_spotNote sp) (by decide))

/-- The spot note never arises from rules 1–8. -/
theorem spotNote_only_rule9 (s : ℚ) (req : AnalyzeRequest) (p : PackingResult) :
    spotNote s ∉ seg_oom req ∧ spotNote s ∉ seg_epn p ∧
      spotNote s ∉ seg_partitions req p ∧ spotNote s ∉ seg_input_data req p ∧
      spotNote s ∉ seg_concurrent req ∧ spotNote s ∉ seg_peak req ∧
      spotNote s ∉ seg_shuffle req p ∧ spotNote s ∉ seg_skew req := by
  refine ⟨?_, ?_, ?_, ?_, ?_, ?_, ?_, ?_⟩
  · intro h
    exact absurd (mem_seg_oom h).1
      (ne_of_strHead (strHead_spotNote s) strHead_oomNote (by decide))
  · intro h
    exact absurd (mem_seg_epn h) (ne_of_strHead (strHead_spotNote s) strHead_gcNote (by decide))
  · intro h
    obtain ⟨pc, t, hx | hx⟩ := mem_seg_partitions h
    · exact absurd hx
        (ne_of_strHead (strHead_spotNote s) (strHead_partitionHighNote pc t) (by decide))
    · exact absurd hx
        (ne_of_strHead (strHead_spotNote s) (strHead_coresHighNote t pc) (by decide))
  · intro h
    obtain ⟨d, m, hx⟩ := mem_seg_input_data h
    exact absurd hx
      (ne_of_strHead (strHead_spotNote s) (strHead_inputDataNote d m) (by decide))
  · intro h
    obtain ⟨c, hx⟩ := mem_seg_concurrent h
    exact absurd hx (spotNote_ne_concurrentNote s c)
  · intro h
    obtain ⟨pk, m, hx⟩ := mem_seg_peak h
    exact absurd hx (ne_of_strHead (strHead_spotNote s) (strHead_peakNote pk m) (by decide))
  · intro h
    exact absurd (mem_seg_shuffle h)
      (ne_of_strHead (strHead_spotNote s) strHead_shuffleNote (by decide))
  · intro h
    exact absurd (mem_seg_skew h)
      (ne_of_strHead (strHead_spotNote s) strHead_skewNote (by decide))

/-- C10 (amended): `_risk_notes` is total and returns the rules' notes in
the fixed source order; it contains the OOM note exactly when
`executor.memory_gb < 6` and the interrupt-risk (spot) note exactly when
`spot_pct` is present and above 50; an absent `partition_count`,
`input_data_gb`, `concurrent_jobs`, `peak_executor_memory_gb`,
`data_skew` or `spot_pct` suppresses exactly its own rule's segment,
while an absent shuffle field is treated as `0` (so the shuffle rule is
suppressed only when this makes the combined shuffle volume vanish, in
particular when both shuffle fields are absent). -/
theorem risk_notes_spec (req : AnalyzeRequest) (packing : PackingResult) :
    (_risk_notes req packing =
      seg_oom req ++ seg_epn packing ++ seg_partitions req packing ++
        seg_input_data req packing ++ seg_concurrent req ++ seg_peak req ++
        seg_shuffle req packing ++ seg_skew req ++ seg_spot req) ∧
    (oomNote ∈ _risk_notes req packing ↔ req.executor.memory_gb < 6) ∧
    ((∃ s, req.workload.spot_pct = some s ∧ 50 < s) ↔
      (∃ s, req.workload.spot_pct = some s ∧ spotNote s ∈ _risk_notes req packing)) ∧
    (req.workload.partition_count = none → seg_partitions req packing = []) ∧
    (req.workload.input_data_gb = none → seg_input_data req packing = []) ∧
    (req.workload.concurrent_jobs = none → seg_concurrent req = []) ∧
    (req.workload.peak_executor_memory_gb = none → seg_peak req = []) ∧
    (req.workload.data_skew = none → seg_skew req = []) ∧
    (req.workload.spot_pct = none → seg_spot req = []) ∧
    (req.workload.shuffle_read_mb = none → req.workload.shuffle_write_mb = none →
      seg_shuffle req packing = []) ∧
    (req.workload.shuffle_read_mb = none →
      seg_shuffle req packing =
        seg_shuffle { req with workload := { req.workload with shuffle_read_mb := some 0 } }
          packing) ∧
    (req.workload.shuffle_write_mb = none →
      seg_shuffle req packing =
        seg_shuffle { req with workload := { req.workload with shuffle_write_mb := some 0 } }
          packing) := by
  obtain ⟨he2, he3, he4, he5, he6, he7, he8, he9⟩ := oomNote_only_rule1 req packing
  refine ⟨rfl, ?_, ?_, ?_, ?_, ?_, ?_, ?_, ?_, ?_, ?_, ?_⟩
  · constructor
    · intro h
      unfold _risk_notes at h
      simp only [List.mem_append] at h
      rcases h with ((((((((h | h) | h) | h) | h) | h) | h) | h) | h)
      · exact (mem_seg_oom h).2
      · exact absurd h he2
      · exact absurd h he3
      · exact absurd h he4
      · exact absurd h he5
      · exact absurd h he6
      · exact absurd h he7
      · exact absurd h he8
      · exact absurd h he9
    · intro hcond
      have h1 : oomNote ∈ seg_oom req := by
        unfold seg_oom
        rw [if_pos hcond]
        simp
      unfold _risk_notes
      simp only [List.mem_append]
      exact Or.inl (Or.inl (Or.inl (Or.inl (Or.inl (Or.inl (Or.inl (Or.inl h1)))))))
  · constructor
    · rintro ⟨s, hs, h50⟩
      refine ⟨s, hs, ?_⟩
      have h9 : spotNote s ∈ seg_spot req := by
        unfold seg_spot
        rw [hs]
        show spotNote s ∈ (if 50 < s then [spotNote s] else [])
        rw [if_pos h50]
        simp
      unfold _risk_notes
      simp only [List.mem_append]
      exact Or.inr h9
    · rintro ⟨s, hs, hmem⟩
      obtain ⟨hs1, hs2, hs3, hs4, hs5, hs6, hs7, hs8⟩ := spotNote_only_rule9 s req packing
      unfold _risk_notes at hmem
      simp only [List.mem_append] at hmem
      rcases hmem with ((((((((h | h) | h) | h) | h) | h) | h) | h) | h)
      · exact absurd h hs1
      · exact absurd h hs2
      · exact absurd h hs3
      · exact absurd h hs4
      · exact absurd h hs5
      · exact absurd h hs6
      · exact absurd h hs7
      · exact absurd h hs8
      · obtain ⟨v, hv, h50, -⟩ := mem_seg_spot h
        exact ⟨v, hv, h50⟩
  · intro h
    unfold seg_partitions
    rw [h]
  · intro h
    unfold seg_input_data
    rw [h]
  · intro h
    unfold seg_concurrent
    rw [h]
  · intro h
    unfold seg_peak
    rw [h]
  · intro h
    unfold seg_skew
    rw [h]
  · intro h
    unfold seg_spot
    rw [h]
  · intro h1 h2
    simp [seg_shuffle, h1, h2]
  · intro h
    unfold seg_shuffle
    rw [h]
    rfl
  · intro h
    unfold seg_shuffle
    rw [h]
    rfl

/-- C10 counterexample: with `shuffle_read_mb` absent but
`shuffle_write_mb = 4000 MB`, a 1 GB-memory executor and one executor in
total, the shuffle rule still fires — the source treats the absent field
as `0` (`or 0`) instead of suppressing the rule, so absence of an
optional workload field does not always suppress its rule. -/
theorem risk_notes_shuffle_absent_counterexample :
    let req : AnalyzeRequest :=
      { node := { cores := 8, memory_gb := 32, hourly_cost_usd := 1, count := 1 }
        executor := { cores := 2, memory_gb := 1 }
        workload := { avg_runtime_minutes := 60, jobs_per_day := 1,
                      shuffle_write_mb := some 4000 } }
    let p : PackingResult :=
      { executors_per_node := 1, cpu_utilization := 1, mem_utilization := 1, cpu_waste := 0,
        mem_waste := 0, waste := 0, efficiency_score := 100 }
    req.workload.shuffle_read_mb = none ∧
    seg_shuffle req p = [shuffleNote] ∧
    shuffleNote ∈ _risk_notes req p := by
  refine ⟨rfl, ?_, ?_⟩
  · norm_num [seg_shuffle]
  · have h7 : shuffleNote ∈ seg_shuffle
        { node := { cores := 8, memory_gb := 32, hourly_cost_usd := 1, count := 1 }
          executor := { cores := 2, memory_gb := 1 }
          workload := { avg_runtime_minutes := 60, jobs_per_day := 1,
                        shuffle_write_mb := some 4000 } }
        { executors_per_node := 1, cpu_utilization := 1, mem_utilization := 1, cpu_waste := 0,
          mem_waste := 0, waste := 0, efficiency_score := 100 } := by
      norm_num [seg_shuffle]
    unfold _risk_notes
    simp only [List.mem_append]
    exact Or.inl (Or.inl (Or.inr h7))

/-- Witness for `risk_notes_spec`: an executor with 4 GB of memory gets
the OOM note. -/
theorem risk_notes_spec_witness :
    (({ node := { cores := 8, memory_gb := 32, hourly_cost_usd := 1, count := 1 }
        executor := { cores := 2, memory_gb := 4 }
        workload := { avg_runtime_minutes := 60, jobs_per_day := 1 } } :
          AnalyzeRequest).executor.memory_gb < 6) ∧
    oomNote ∈ _risk_notes
      { node := { cores := 8, memory_gb := 32, hourly_cost_usd := 1, count := 1 }
        executor := { cores := 2, memory_gb := 4 }
        workload := { avg_runtime_minutes := 60, jobs_per_day := 1 } }
      { executors_per_node := 2, cpu_utilization := 1, mem_utilization := 1, cpu_waste := 0,
        mem_waste := 0, waste := 0, efficiency_score := 100 } :=
  ⟨by norm_num,
    (risk_notes_spec
      { node := { cores := 8, memory_gb := 32, hourly_cost_usd := 1, count := 1 }
        executor := { cores := 2, memory_gb := 4 }
        workload := { avg_runtime_minutes := 60, jobs_per_day := 1 } }
      { executors_per_node := 2, cpu_utilization := 1, mem_utilization := 1, cpu_waste := 0,
        mem_waste := 0, waste := 0, efficiency_score := 100 }).2.1.mpr (by norm_num)⟩
